import Mathlib

/-!
Verification development for the BAENG impulse-response language
(`src/baeng.py`, `src/baengParser.py`).

The interpreter (`class Baeng`) and the relevant part of the parser
(`translate`) are shallowly embedded below.  Python machine values are
modelled by the inductive type `PyObj`: Python `int` becomes `ℤ`,
Python `float` and the numpy `float32` samples become exact rationals
(`ℚ`; every sample value appearing in the proved statements is a dyadic
rational that `float32` represents exactly), Python `dict` becomes an
ordered association list with insert-replaces-value semantics, and
Python exceptions become an explicit error type threaded through an
`Except` monad.  Divergence (a `while` loop, or a user function calling
itself) is handled by a fuel argument; running out of fuel is a distinct
outcome (`Exn.fuelOut`) that no theorem below confuses with either
success or a Python exception.
-/

namespace Baeng

/-- Python exception classes raised (or propagated) by the interpreter. -/
inductive PyError where
  | keyError
  | indexError
  | typeError
  | valueError
  | nameError
  | syntaxError
  | zeroDivisionError
  | notImplementedError
deriving DecidableEq, Repr

/-- Outcome tag for the fuelled interpreter: a genuine Python exception,
or fuel exhaustion (the modelled run would have continued). -/
inductive Exn where
  | py (e : PyError)
  | fuelOut
deriving DecidableEq, Repr

/-- Python values as they occur in a BAENG script and at run time:
`int`, `float` (modelled exactly as `ℚ`), `str`, `list`, `bool`,
`None`, and the `ImpulseResponse` handle that `_eval_string` installs
under the name `IR`. -/
inductive PyObj where
  | int (n : ℤ)
  | float (q : ℚ)
  | str (s : String)
  | list (xs : List PyObj)
  | bool (b : Bool)
  | none
  | irHandle
deriving Repr

/-- Python `dict` with `str`-convertible keys, as an ordered association
list (insertion order preserved, one entry per key, exactly the
observable behaviour of the dicts used by `baeng.py`). -/
abbrev Dict := List (String × PyObj)

/-- `d[key]` lookup (first, and by construction only, entry wins). -/
def Dict.lookup : Dict → String → Option PyObj
  | [], _ => Option.none
  | (k, v) :: rest, key => if k = key then some v else Dict.lookup rest key

/-- `d[key] = v`: replace in place if the key exists (keeping its
position, as Python dicts do), else append. -/
def Dict.insert : Dict → String → PyObj → Dict
  | [], k, v => [(k, v)]
  | (k0, v0) :: rest, k, v =>
      if k0 = k then (k0, v) :: rest else (k0, v0) :: Dict.insert rest k v

/-- `d.update(e)`: fold `e`'s entries into `d` in order. -/
def Dict.update (d e : Dict) : Dict :=
  e.foldl (fun acc kv => Dict.insert acc kv.1 kv.2) d

/-- The three scope modes threaded through `Baeng._interpret_codeblock`
(the Python strings `"global"`, `"local"`, `"stay_local"`). -/
inductive Scope where
  | globalScope
  | localScope
  | stayLocal
deriving DecidableEq, Repr

/-- One user function of the script: the dict
`{"PARAMS": [...], "CODE": [...]}` produced by the parser. -/
structure FuncDef where
  PARAMS : List String
  CODE : List PyObj
deriving Repr

/-- The structured script dict fed to `Baeng.__init__`: the `"IR"`
header list, the user functions (every key other than `"IR"` and
`"CODE"`), and the `"CODE"` main sequence. -/
structure Script where
  IR : List PyObj
  functions : List (String × FuncDef)
  CODE : List PyObj
deriving Repr

/-- Interpreter state: the fields of a `Baeng` instance.
`local_variables` is the Python list of local frames with the top frame
(`local_variables[-1]`) at the HEAD of the Lean list; the only
operations `baeng.py` performs on it are append, `[-1]`, `pop(-1)` and
an emptiness test, so this orientation is observationally faithful.
`ir_data` is the numpy sample array of the `ImpulseResponse`; `ir_fs`
and `ir_duration` are the constructor arguments it stores unchanged
(`script["IR"][0]` and `script["IR"][1]`).  `pushCount`/`popCount` are
ghost instrumentation counting every `local_variables.append` /
`local_variables.pop(-1)` the interpreter performs; they influence
nothing. -/
structure BaengState where
  global_vars : Dict
  local_variables : List Dict
  ir_data : List ℚ
  ir_fs : PyObj
  ir_duration : PyObj
  SAMPLEPOS : ℤ
  pushCount : ℕ
  popCount : ℕ
deriving Repr

/-- Python multiplication restricted to numbers as they occur in an IR
header (`int`, `float`; `bool` acts as an `int` in Python arithmetic).
Any other operand — e.g. the string fallback the parser can put in a
header — raises `TypeError`, as `str * str` does in Python. -/
def pyMul : PyObj → PyObj → Except PyError PyObj
  | .int a, .int b => .ok (.int (a * b))
  | .int a, .float b => .ok (.float ((a : ℚ) * b))
  | .float a, .int b => .ok (.float (a * (b : ℚ)))
  | .float a, .float b => .ok (.float (a * b))
  | .bool a, .int b => .ok (.int ((if a then 1 else 0) * b))
  | .bool a, .float b => .ok (.float ((if a then 1 else 0 : ℚ) * b))
  | .int a, .bool b => .ok (.int (a * (if b then 1 else 0)))
  | .float a, .bool b => .ok (.float (a * (if b then 1 else 0 : ℚ)))
  | .bool a, .bool b => .ok (.int ((if a then 1 else 0) * (if b then 1 else 0)))
  | _, _ => .error .typeError

/-- Python `int(x)` on a number: identity on `int`, truncation toward
zero on `float` (numeric strings are not modelled; no claim uses them —
`pyMul` has already raised on any header containing a string). -/
def pyIntOf : PyObj → Except PyError ℤ
  | .int n => .ok n
  | .float q => .ok (Int.tdiv q.num (q.den : ℤ))
  | .bool b => .ok (if b then 1 else 0)
  | _ => .error .typeError

/-- Python `range(x)` as the list of its elements: defined for `int`
(and `bool`, an `int` subclass); a `float` argument raises `TypeError`
(`'float' object cannot be interpreted as an integer`), even when its
value is integral. -/
def pyRange : PyObj → Except PyError (List ℤ)
  | .int n => .ok ((List.range n.toNat).map Int.ofNat)
  | .bool b => .ok ((List.range (if b then 1 else 0)).map Int.ofNat)
  | _ => .error .typeError

/-- Truthiness (`bool(x)`) for the value shapes a condition can take.
A numpy array of length ≠ 1 raises `ValueError` in a boolean context;
the handle case is modelled as that error (no claim evaluates the
buffer handle as a condition). -/
def pyTruthy : PyObj → Except PyError Bool
  | .int n => .ok (n ≠ 0)
  | .float q => .ok (q ≠ 0)
  | .str s => .ok (s ≠ "")
  | .list xs => .ok (!xs.isEmpty)
  | .bool b => .ok b
  | .none => .ok false
  | .irHandle => .error .valueError

/-- numpy index normalisation for a 1-D array of length `n`: an integer
`i` with `-n ≤ i < n` addresses position `i` (from the end when
negative); anything else raises `IndexError`. -/
def npIndex (i : ℤ) (n : ℕ) : Except PyError ℕ :=
  if 0 ≤ i ∧ i < (n : ℤ) then .ok i.toNat
  else if -(n : ℤ) ≤ i ∧ i < 0 then .ok (i + n).toNat
  else .error .indexError

/-- `ImpulseResponse.__getitem__` composed with the numpy indexing rule:
non-integer indices raise `IndexError` (numpy: "only integers … are
valid indices"; the `bool` index special case is not modelled — no
claim and no parser output produces one). -/
def npGet (data : List ℚ) : PyObj → Except PyError ℚ
  | .int i => do
      let j ← npIndex i data.length
      match data.get? j with
      | some v => .ok v
      | Option.none => .error .indexError
  | _ => .error .indexError

/-- Coerce a value being stored into the `float32` array.  `int`,
`float` and `bool` convert; other objects raise (numeric strings are
not modelled — no claim stores one). -/
def toSample : PyObj → Except PyError ℚ
  | .int n => .ok (n : ℚ)
  | .float q => .ok q
  | .bool b => .ok (if b then 1 else 0)
  | _ => .error .valueError

/-- `ImpulseResponse.__setitem__` composed with the numpy indexing rule. -/
def npSet (data : List ℚ) : PyObj → PyObj → Except PyError (List ℚ)
  | .int i, v => do
      let j ← npIndex i data.length
      let q ← toSample v
      .ok (data.set j q)
  | _, _ => .error .indexError

/-- `list[i]` on a Python list (`IndexError` when out of range). -/
def pyListGet (xs : List PyObj) (i : ℕ) : Except PyError PyObj :=
  match xs.get? i with
  | some v => .ok v
  | Option.none => .error .indexError

/-- `obj[i]` for the shapes a code line can take: a list indexes
normally, a string yields the one-character string at `i`, numbers are
not subscriptable (`TypeError`). -/
def pyGetItem : PyObj → ℕ → Except PyError PyObj
  | .list xs, i => pyListGet xs i
  | .str s, i =>
      match s.toList.get? i with
      | some c => .ok (.str (String.mk [c]))
      | Option.none => .error .indexError
  | _, _ => .error .typeError

/-- Argument unpacking `*obj[1:]` for the shapes a code line can take:
a list contributes its remaining elements, a string its remaining
characters as one-character strings. -/
def pyTailArgs : PyObj → Except PyError (List PyObj)
  | .list xs => .ok (xs.drop 1)
  | .str s => .ok (((s.toList.drop 1)).map (fun c => .str (String.mk [c])))
  | _ => .error .typeError

/-- Iterating `code_line[1]` (`for parameter in code_line[1]`): lists
iterate their elements, strings their characters; numbers raise
`TypeError`. -/
def pyIterate : PyObj → Except PyError (List PyObj)
  | .list xs => .ok xs
  | .str s => .ok (s.toList.map (fun c => .str (String.mk [c])))
  | _ => .error .typeError

/-- The keys of `Baeng.operators`. -/
def operatorNames : List String :=
  ["if", "while", "define", "setSample", "readSample", "export", "print"]

/-- Result of a fuelled interpreter step. -/
abbrev Res (α : Type) := Except Exn α

/-- Lift a Python-level result into the fuelled monad. -/
def liftPy : Except PyError α → Res α
  | .ok a => .ok a
  | .error e => .error (.py e)

/-- Lookup in `self.user_functions` (string keys only; the parser
produces no other key shape). -/
def funcLookup : List (String × FuncDef) → String → Option FuncDef
  | [], _ => Option.none
  | (k, f) :: rest, n => if k = n then some f else funcLookup rest n

/-- Immutable context of a run: the expression Evaluator collaborator
and the function table (`self.user_functions`, fixed at `__init__`). -/
structure Ctx where
  evalFn : Dict → String → Except PyError PyObj
  funcs : List (String × FuncDef)

/-- The environment `Baeng._eval_string` assembles for every raw
expression evaluation: a copy of the deepest local frame
(`local_variables[-1]`, `IndexError` if the frame list were empty),
updated with the global store (so global bindings overwrite local
duplicates), then updated with `SAMPLEPOS` and `IR`. -/
def allVariables (st : BaengState) : Except PyError Dict :=
  match st.local_variables with
  | [] => .error .indexError
  | top :: _ =>
      .ok (((Dict.update top st.global_vars).insert
              "SAMPLEPOS" (.int st.SAMPLEPOS)).insert "IR" .irHandle)

/-- `Baeng._eval_string`: build the environment and hand the raw text to
the Evaluator. -/
def eval_string (ctx : Ctx) (st : BaengState) (s : String) :
    Except PyError PyObj := do
  let env ← allVariables st
  ctx.evalFn env s

/-- The store half of `Baeng._define_op` (after its parameter fetch):
`"local"` writes the deepest frame, `"stay_local"` writes the deepest
frame when one exists and falls back to the global store, `"global"`
writes the global store. -/
def define_store (name : String) (v : PyObj) (scope : Scope)
    (st : BaengState) : Except PyError BaengState :=
  match scope with
  | .localScope =>
      match st.local_variables with
      | [] => .error .indexError  -- local_variables[-1] on an empty list
      | top :: rest =>
          .ok { st with local_variables := Dict.insert top name v :: rest }
  | .stayLocal =>
      match st.local_variables with
      | [] => .ok { st with global_vars := Dict.insert st.global_vars name v }
      | top :: rest =>
          .ok { st with local_variables := Dict.insert top name v :: rest }
  | .globalScope =>
      .ok { st with global_vars := Dict.insert st.global_vars name v }

/-- `dict(zip(parameter_names, parameter_values))` (zip truncates to the
shorter list; a repeated name keeps the last value). -/
def dictOfZip (names : List String) (vals : List PyObj) : Dict :=
  (names.zip vals).foldl (fun d kv => Dict.insert d kv.1 kv.2) []

mutual

/-- `Baeng._fetch_parameter`: a list executes the associated operator
(`self.operators[obj[0]]`, whose failed lookup raises an uncaught
`KeyError` here), a string is evaluated by the Evaluator, an `int` or
`float` is returned directly, and any other object raises `TypeError`
(note `type(True) is int` is `False` in Python, so `bool` also raises). -/
def fetch_parameter (ctx : Ctx) :
    ℕ → PyObj → Scope → BaengState → Res (PyObj × BaengState)
  | 0, _, _, _ => .error .fuelOut
  | fuel + 1, obj, scope, st =>
      match obj with
      | .list xs => do
          let head ← liftPy (pyListGet xs 0)
          match head with
          | .str h =>
              if h ∈ operatorNames then
                operators_apply ctx fuel h (xs.drop 1) scope st
              else .error (.py .keyError)
          | .list _ => .error (.py .typeError)    -- unhashable dict key
          | .irHandle => .error (.py .typeError)  -- unhashable dict key
          | _ => .error (.py .keyError)           -- hashable, not an operator key
      | .str s => do
          let v ← liftPy (eval_string ctx st s)
          .ok (v, st)
      | .int _ => .ok (obj, st)
      | .float _ => .ok (obj, st)
      | _ => .error (.py .typeError)

/-- Application of one entry of `Baeng.operators` with unpacked
arguments: `_if_op`, `_while_op`, `_define_op`, `_set_sample_op`,
`_read_sample_op`, `_export_op`, `_print_op`.  A wrong argument count
is the `TypeError` Python raises when `*args` unpacking does not match
the method signature.  `_while_op` is modelled by re-entering itself with
the original arguments (its scope downgrade `local → stay_local` is
idempotent, so re-downgrading is equivalent to Python's single
assignment).  `_export_op` and `_print_op` only perform output, leaving
the interpreter state unchanged. -/
def operators_apply (ctx : Ctx) :
    ℕ → String → List PyObj → Scope → BaengState → Res (PyObj × BaengState)
  | 0, _, _, _, _ => .error .fuelOut
  | fuel + 1, name, args, scope, st =>
      match name, args with
      | "if", [cond, block] => do
          let scope1 := if scope = Scope.localScope then Scope.stayLocal else scope
          let (c, st1) ← fetch_parameter ctx fuel cond scope1 st
          let b ← liftPy (pyTruthy c)
          if b then do
            let (_, st2) ← interpret_codeblock ctx fuel block [] scope1 st1
            .ok (.none, st2)
          else .ok (.none, st1)
      | "while", [cond, block] => do
          let scope1 := if scope = Scope.localScope then Scope.stayLocal else scope
          let (c, st1) ← fetch_parameter ctx fuel cond scope1 st
          let b ← liftPy (pyTruthy c)
          if b then do
            let (_, st2) ← interpret_codeblock ctx fuel block [] scope1 st1
            operators_apply ctx fuel "while" [cond, block] scope st2
          else .ok (.none, st1)
      | "define", [nameObj, valueObj] => do
          let (v, st1) ← fetch_parameter ctx fuel valueObj scope st
          match nameObj with
          | .str n => do
              let st2 ← liftPy (define_store n v scope st1)
              .ok (.none, st2)
          | _ => .error (.py .typeError)  -- non-string names: unreachable from the parser
      | "setSample", [key, value] => do
          let (idx, st1) ← fetch_parameter ctx fuel key scope st
          let (v, st2) ← fetch_parameter ctx fuel value scope st1
          let data ← liftPy (npSet st2.ir_data idx v)
          .ok (.none, { st2 with ir_data := data })
      | "readSample", [key] => do
          let (idx, st1) ← fetch_parameter ctx fuel key scope st
          let q ← liftPy (npGet st1.ir_data idx)
          .ok (.float q, st1)
      | "export", [_] => .ok (.none, st)
      | "print", [_] => .ok (.none, st)
      | _, _ => .error (.py .typeError)

/-- The `for code_line in code_block` loop of
`Baeng._interpret_codeblock` with its `try`/`except KeyError`: a line
whose head is a known operator runs it; a `KeyError` (from the
`self.operators[code_line[0]]` lookup of an unknown head, or escaping
from inside an operator application) falls back to the user-function
branch; a head matching neither raises `NotImplementedError`.  The
`KeyError` that the fallback catches can only have been raised by the
operator-dictionary lookup itself — before any state mutation of the
statement — except for scripts that name a user function after a
reserved operator, which no claim involves; the fallback therefore
resumes from the pre-statement state. -/
def interpret_lines (ctx : Ctx) :
    ℕ → List PyObj → Scope → BaengState → Res BaengState
  | 0, _, _, _ => .error .fuelOut
  | _ + 1, [], _, st => .ok st
  | fuel + 1, line :: rest, scope, st => do
      let head ← liftPy (pyGetItem line 0)
      let step : Res (PyObj × BaengState) :=
        match head with
        | .str h =>
            if h ∈ operatorNames then
              match pyTailArgs line with
              | .ok args => operators_apply ctx fuel h args scope st
              | .error e => .error (.py e)
            else .error (.py .keyError)
        | .list _ => .error (.py .typeError)
        | .irHandle => .error (.py .typeError)
        | _ => .error (.py .keyError)
      match step with
      | .ok (_, st1) => interpret_lines ctx fuel rest scope st1
      | .error (.py .keyError) =>
          match head with
          | .str h =>
              match funcLookup ctx.funcs h with
              | some fd => do
                  let argsObj ← liftPy (pyGetItem line 1)
                  let argItems ← liftPy (pyIterate argsObj)
                  let (vals, st1) ← fetch_params ctx fuel argItems scope st
                  let newParams := dictOfZip fd.PARAMS vals
                  let prod ← liftPy (pyMul st1.ir_fs st1.ir_duration)
                  let positions ← liftPy (pyRange prod)
                  let (_, st2) ← kernel_loop ctx fuel positions fd.CODE newParams st1
                  interpret_lines ctx fuel rest scope st2
              | Option.none => .error (.py .notImplementedError)
          | _ => .error (.py .notImplementedError)
      | .error e => .error e

/-- Sequential evaluation of the argument expressions of a user-function
call (`for parameter in code_line[1]: … self._fetch_parameter(…)`). -/
def fetch_params (ctx : Ctx) :
    ℕ → List PyObj → Scope → BaengState → Res (List PyObj × BaengState)
  | 0, _, _, _ => .error .fuelOut
  | _ + 1, [], _, st => .ok ([], st)
  | fuel + 1, p :: ps, scope, st => do
      let (v, st1) ← fetch_parameter ctx fuel p scope st
      let (vs, st2) ← fetch_params ctx fuel ps scope st1
      .ok (v :: vs, st2)

/-- The per-sample loop of a user-function call:
`for sample_position in range(self.IR.fs * self.IR.duration)`, setting
`self.SAMPLEPOS` and executing the callee body in `"local"` scope.  In
Python the SAME dict object `new_parameters` is appended as the local
frame at every position, so mutations it receives in one position are
visible in the next; the returned frame of each body execution is
threaded to the next iteration to model exactly that aliasing. -/
def kernel_loop (ctx : Ctx) :
    ℕ → List ℤ → List PyObj → Dict → BaengState → Res (Dict × BaengState)
  | 0, _, _, _, _ => .error .fuelOut
  | _ + 1, [], _, params, st => .ok (params, st)
  | fuel + 1, p :: ps, code, params, st => do
      let (frame, st1) ←
        interpret_codeblock ctx fuel (.list code) params Scope.localScope
          { st with SAMPLEPOS := p }
      kernel_loop ctx fuel ps code frame st1

/-- `Baeng._interpret_codeblock`: in `"local"` scope append the
parameters dict as a fresh deepest frame before the statement loop and
pop the deepest frame after it (the pop is skipped when a statement
raises, exactly as in Python, where no `finally` protects it).  Returns
the dict the caller's `parameters` reference designates after the call:
the popped frame in `"local"` scope, the untouched argument otherwise. -/
def interpret_codeblock (ctx : Ctx) :
    ℕ → PyObj → Dict → Scope → BaengState → Res (Dict × BaengState)
  | 0, _, _, _, _ => .error .fuelOut
  | fuel + 1, block, params, scope, st => do
      let st0 :=
        if scope = Scope.localScope then
          { st with local_variables := params :: st.local_variables,
                    pushCount := st.pushCount + 1 }
        else st
      let lines ← liftPy (pyIterate block)
      let st1 ← interpret_lines ctx fuel lines scope st0
      if scope = Scope.localScope then
        match st1.local_variables with
        | top :: rest =>
            .ok (top, { st1 with local_variables := rest,
                                 popCount := st1.popCount + 1 })
        | [] => .error (.py .indexError)  -- pop(-1) from an empty list; unreachable
      else .ok (params, st1)

end

/-- `Baeng.__init__`: read `script["IR"][0]` and `script["IR"][1]`
(`IndexError` when the header is shorter) and build the zero-filled
`ImpulseResponse` of length `int(fs * duration)` (`np.zeros` raises
`ValueError` on a negative size).  The function table and the two
always-reset stores are set up as in the source. -/
def baengInit (script : Script) : Except PyError BaengState := do
  let fs ← pyListGet script.IR 0
  let dur ← pyListGet script.IR 1
  let prod ← pyMul fs dur
  let size ← pyIntOf prod
  if size < 0 then .error .valueError
  else
    .ok { global_vars := [], local_variables := [[]],
          ir_data := List.replicate size.toNat 0,
          ir_fs := fs, ir_duration := dur, SAMPLEPOS := 0,
          pushCount := 0, popCount := 0 }

/-- `Baeng(script).run()`: construct the interpreter, execute the main
`"CODE"` sequence in `"global"` scope, then perform the end-of-run
export to `script["IR"][2]` (the file write itself is external; only
its header access is modelled). -/
def runScript (E : Dict → String → Except PyError PyObj) (fuel : ℕ)
    (script : Script) : Res BaengState := do
  let st ← liftPy (baengInit script)
  let ctx : Ctx := ⟨E, script.functions⟩
  let (_, st1) ←
    interpret_codeblock ctx fuel (.list script.CODE) [] Scope.globalScope st
  let _ ← liftPy (pyListGet script.IR 2)
  .ok st1

/-! ### The Evaluator collaborator

`Baeng._eval_string` delegates raw expression text to Python's builtin
`eval`, which is not code of this repository; the spec (§1, §6) treats
the expression evaluator as an external collaborator with a contract:
given the variable environment, return one value; support arithmetic
and comparisons; raise a fatal error on an unresolved identifier.  The
two instances below are modelled from that contract and agree with
Python's `eval` on every expression string appearing in the concrete
programs of this development. -/

/-- Modelled from the spec: the Evaluator collaborator (§6) restricted
to bare-identifier expressions — the environment lookup, with an
unresolved identifier raising the fatal evaluation error (`NameError`).
It agrees with Python's `eval` on every string that is a plain,
non-keyword identifier. -/
def lookupEval (env : Dict) (s : String) : Except PyError PyObj :=
  match env.lookup s with
  | some v => .ok v
  | Option.none => .error .nameError

/-- Characters beginning a Python identifier (ASCII fragment). -/
def identStart (c : Char) : Bool := c.isAlpha || c = '_'

/-- Characters continuing a Python identifier (ASCII fragment). -/
def identChar (c : Char) : Bool := c.isAlphanum || c = '_'

/-- The binary operator characters the mini evaluator supports. -/
def opChar (c : Char) : Bool :=
  c = '+' || c = '-' || c = '*' || c = '/' || c = '<' || c = '>'

/-- Python keywords (they are not identifier names; `eval` would not
resolve them through the environment). -/
def pythonKeywords : List String :=
  ["False", "None", "True", "and", "as", "assert", "async", "await",
   "break", "class", "continue", "def", "del", "elif", "else", "except",
   "finally", "for", "from", "global", "if", "import", "in", "is",
   "lambda", "nonlocal", "not", "or", "pass", "raise", "return", "try",
   "while", "with", "yield"]

/-- `s` is a plain (ASCII, non-keyword) Python identifier, so that
`eval(s, \x7b\x7d, env)` is exactly the environment lookup of `s`. -/
def pyIdent (s : String) : Bool :=
  match s.toList with
  | [] => false
  | c :: cs => identStart c && cs.all identChar && !(pythonKeywords.contains s)

/-- Tokens of the mini expression evaluator. -/
inductive Tok where
  | ident (s : String)
  | num (v : PyObj)
  | op (c : Char)
deriving Repr

/-- Partial token being scanned. -/
inductive Pending where
  | nothing
  | identAcc (acc : String)
  | intAcc (n : ℕ)
  | fracAcc (ip : ℕ) (f : ℕ) (d : ℕ)
deriving Repr

/-- Emit a finished pending token. -/
def Pending.flush : Pending → List Tok
  | .nothing => []
  | .identAcc acc => [.ident acc]
  | .intAcc n => [.num (.int n)]
  | .fracAcc ip f d => [.num (.float ((ip : ℚ) + (f : ℚ) / (d : ℚ)))]

/-- Tokenizer state. -/
structure TokSt where
  toks : List Tok
  pending : Pending
  bad : Bool

/-- Consume one character with no token pending. -/
def stepFresh (s : TokSt) (c : Char) : TokSt :=
  if c = ' ' then s
  else if c.isDigit then { s with pending := .intAcc (c.toNat - 48) }
  else if identStart c then { s with pending := .identAcc (String.mk [c]) }
  else if opChar c then { s with toks := s.toks ++ [.op c] }
  else { s with bad := true }

/-- Consume one character. -/
def tokStep (s : TokSt) (c : Char) : TokSt :=
  if s.bad then s
  else
    match s.pending with
    | .nothing => stepFresh s c
    | .identAcc acc =>
        if identChar c then { s with pending := .identAcc (acc.push c) }
        else stepFresh { s with toks := s.toks ++ [.ident acc],
                                pending := .nothing } c
    | .intAcc n =>
        if c.isDigit then { s with pending := .intAcc (n * 10 + (c.toNat - 48)) }
        else if c = '.' then { s with pending := .fracAcc n 0 1 }
        else if identChar c then { s with bad := true }
        else stepFresh { s with toks := s.toks ++ [.num (.int n)],
                                pending := .nothing } c
    | .fracAcc ip f d =>
        if c.isDigit then
          { s with pending := .fracAcc ip (f * 10 + (c.toNat - 48)) (d * 10) }
        else if identChar c || c = '.' then { s with bad := true }
        else stepFresh { s with toks := s.toks ++ [.num (.float ((ip : ℚ) + (f : ℚ) / (d : ℚ)))],
                                pending := .nothing } c

/-- Tokenize an expression string. -/
def tokenize (s : String) : Except PyError (List Tok) :=
  let fin := s.toList.foldl tokStep ⟨[], .nothing, false⟩
  if fin.bad then .error .syntaxError
  else .ok (fin.toks ++ fin.pending.flush)

/-- A number operand: `(isFloat, value)`; Python `bool` participates in
arithmetic as an `int`. -/
inductive Num2 where
  | i (n : ℤ)
  | f (q : ℚ)

/-- View a value as an arithmetic operand. -/
def toNum2 : PyObj → Except PyError Num2
  | .int n => .ok (.i n)
  | .float q => .ok (.f q)
  | .bool b => .ok (.i (if b then 1 else 0))
  | _ => .error .typeError

/-- Rational content of an operand. -/
def Num2.q : Num2 → ℚ
  | .i n => (n : ℚ)
  | .f q => q

/-- Apply one Python binary operator to numeric operands: `+ - *`
preserve int-ness, `/` is true division (always float,
`ZeroDivisionError` on a zero divisor), `< >` compare numerically. -/
def binApply (c : Char) (a b : PyObj) : Except PyError PyObj := do
  let x ← toNum2 a
  let y ← toNum2 b
  match c with
  | '+' =>
      match x, y with
      | .i m, .i n => .ok (.int (m + n))
      | _, _ => .ok (.float (x.q + y.q))
  | '-' =>
      match x, y with
      | .i m, .i n => .ok (.int (m - n))
      | _, _ => .ok (.float (x.q - y.q))
  | '*' =>
      match x, y with
      | .i m, .i n => .ok (.int (m * n))
      | _, _ => .ok (.float (x.q * y.q))
  | '/' =>
      if y.q = 0 then .error .zeroDivisionError
      else .ok (.float (x.q / y.q))
  | '<' => .ok (.bool (decide (x.q < y.q)))
  | '>' => .ok (.bool (decide (y.q < x.q)))
  | _ => .error .syntaxError

/-- Value of one token: identifiers resolve through the environment
(`NameError` when unbound), literals denote themselves. -/
def atomVal (env : Dict) : Tok → Except PyError PyObj
  | .ident s =>
      match env.lookup s with
      | some v => .ok v
      | Option.none => .error .nameError
  | .num v => .ok v
  | .op _ => .error .syntaxError

/-- Modelled from the spec: the Evaluator collaborator (§6) on the
expression forms the example programs use — a single atom (identifier
or numeric literal) or one binary operation between two atoms, with
Python's numeric semantics.  On each such string it agrees with
Python's `eval` over the same environment. -/
def miniEval (env : Dict) (s : String) : Except PyError PyObj := do
  let toks ← tokenize s
  match toks with
  | [t] => atomVal env t
  | [a, .op c, b] => do binApply c (← atomVal env a) (← atomVal env b)
  | _ => .error .syntaxError

/-! ### Parser output assembly (`baengParser.translate`) -/

/-- One item of the `parse_block` output that `translate` partitions:
the `("__IR__", parts)` tuple of a `set IR:` line, the
`("__FUNC__", name, params, body)` tuple of a `func` definition, or an
ordinary statement. -/
inductive ParsedItem where
  | irDecl (parts : List PyObj)
  | funcDecl (name : String) (params : List String) (body : List PyObj)
  | stmt (s : PyObj)
deriving Repr

/-- `result[fname] = …` on the function table: replace in place when the
key exists, else append (Python dict assignment). -/
def insertFunc : List (String × FuncDef) → String → FuncDef →
    List (String × FuncDef)
  | [], k, v => [(k, v)]
  | (k0, v0) :: rest, k, v =>
      if k0 = k then (k0, v) :: rest else (k0, v0) :: insertFunc rest k v

/-- Whether a parsed item is the `("__IR__", …)` tuple of a
`set IR:` line. -/
def ParsedItem.isIR : ParsedItem → Bool
  | .irDecl _ => true
  | _ => false

/-- One step of the assembly loop of `translate`. -/
def assembleStep
    (acc : Option (List PyObj) × List (String × FuncDef) × List PyObj)
    (item : ParsedItem) :
    Option (List PyObj) × List (String × FuncDef) × List PyObj :=
  match item with
  | .irDecl parts => (some parts, acc.2.1, acc.2.2)
  | .funcDecl n ps body =>
      (acc.1, insertFunc acc.2.1 n ⟨ps, body⟩, acc.2.2)
  | .stmt s => (acc.1, acc.2.1, acc.2.2 ++ [s])

/-- The assembly loop of `translate` (src/baengParser.py, lines
385-411): `__IR__` items set the header (the last one wins), `__FUNC__`
items are keyed into the function table (re-definition overwrites), and
everything else is appended to the main code; a missing header defaults
to the empty list. -/
def translateAssemble (parsed : List ParsedItem) : Script :=
  let fin := parsed.foldl assembleStep (Option.none, [], [])
  { IR := fin.1.getD [], functions := fin.2.1, CODE := fin.2.2 }

/-! ### Concrete programs used by the claims -/

mutual
/-- No statement of the block (recursively, through every nested list)
has a head naming one of the user functions `fns`: executing such a
value can reach no kernel invocation. -/
def callFree (fns : List String) : PyObj → Bool
  | .list xs =>
      (match xs with
       | .str h :: _ => !(fns.contains h)
       | _ => true) && callFreeList fns xs
  | .str s =>
      (match s.toList with
       | [] => true
       | c :: _ => !(fns.contains (String.mk [c])))
  | _ => true

def callFreeList (fns : List String) : List PyObj → Bool
  | [] => true
  | x :: xs => callFree fns x && callFreeList fns xs
end

/-- The body of `scriptC1`'s `g`: one `setSample(SAMPLEPOS, p)`
statement. -/
def bodyC1 : List PyObj :=
  [.list [.str "setSample", .str "SAMPLEPOS", .str "p"]]

/-- The function table of `scriptC1`: the single one-parameter `g`. -/
def funcsC1 : List (String × FuncDef) := [("g", ⟨["p"], bodyC1⟩)]

/-- The run context of `scriptC1`. -/
def ctxC1 : Ctx := ⟨miniEval, funcsC1⟩

/-- Argument-timing probe: `g(p)` writes its parameter `p` at every
sample position; the main code calls it once with the cursor-dependent
argument expression `SAMPLEPOS+7`, over an `n`-sample buffer. -/
def scriptC1 (n : ℕ) : Script :=
  { IR := [.int (n : ℤ), .int 1, .str "o.wav"],
    functions := funcsC1,
    CODE := [.list [.str "g", .list [.str "SAMPLEPOS+7"]]] }

/-- An 8 Hz, half-second header (a 4-sample buffer) and one call of a
zero-parameter function. -/
def scriptC2 : Script :=
  { IR := [.int 8, .float (1/2), .str "o.wav"],
    functions := [("f", ⟨[],
      [.list [.str "setSample", .str "SAMPLEPOS", .int 0]]⟩)],
    CODE := [.list [.str "f", .list []]] }

/-- Scope probe: `h()` runs a `define` of the given variable name inside
an `if` body, then reads that variable from a later statement of the
same function body; the main code calls `h` once over a 1-sample
buffer. -/
def scriptC3 (name : String) : Script :=
  { IR := [.int 1, .int 1, .str "o.wav"],
    functions := [("h", ⟨[],
      [.list [.str "if", .int 1,
         .list [.list [.str "define", .str name, .int 7]]],
       .list [.str "setSample", .int 0, .str name]]⟩)],
    CODE := [.list [.str "h", .list []]] }

/-- Frame-reuse probe: over a 2-sample buffer, `g()` reads the local
variable `x` at position 1 (guarded by `if SAMPLEPOS`) that only a
`define` executed during position 0 can have bound. -/
def scriptC4 : Script :=
  { IR := [.int 2, .int 1, .str "o.wav"],
    functions := [("g", ⟨[],
      [.list [.str "if", .str "SAMPLEPOS",
         .list [.list [.str "setSample", .int 0, .str "x"]]],
       .list [.str "define", .str "x", .int 42]]⟩)],
    CODE := [.list [.str "g", .list []]] }

/-- The body of `scriptC4.functions`'s `g`, for probing `kernel_loop`
directly. -/
def bodyC4 : List PyObj :=
  [.list [.str "if", .str "SAMPLEPOS",
     .list [.list [.str "setSample", .int 0, .str "x"]]],
   .list [.str "define", .str "x", .int 42]]

/-- An empty 8-sample script, giving a concrete buffer for the
`setSample`/`readSample` probes. -/
def scriptC5 : Script :=
  { IR := [.int 8, .int 1, .str "o.wav"], functions := [], CODE := [] }

/-- A context with no user functions and the identifier evaluator. -/
def ctx0 : Ctx := ⟨lookupEval, []⟩

/-- The state `Baeng.__init__` builds for `scriptC5` (an 8-sample
zero-filled buffer): `baengInit scriptC5 = .ok stC5c` holds by `rfl`. -/
def stC5c : BaengState :=
  { global_vars := [], local_variables := [[]],
    ir_data := List.replicate 8 0, ir_fs := .int 8, ir_duration := .int 1,
    SAMPLEPOS := 0, pushCount := 0, popCount := 0 }

/-- `setSample(-1, 5.0)` followed by `readSample(-1)` on the 8-sample
buffer of `scriptC5`, returning the buffer length and the value read. -/
def probeC5 : Res (ℕ × PyObj) := do
  let st ← liftPy (baengInit scriptC5)
  let (_, st1) ← operators_apply ctx0 2 "setSample"
    [.int (-1), .float 5] Scope.globalScope st
  let (v, _) ← operators_apply ctx0 2 "readSample"
    [.int (-1)] Scope.globalScope st1
  pure (st.ir_data.length, v)

/-- The end-to-end example of the spec: `(rate=8, duration=1)` and one
call of the zero-parameter `f` whose body is
`setSample(SAMPLEPOS, SAMPLEPOS/8)`. -/
def scriptC7 : Script :=
  { IR := [.int 8, .int 1, .str "out.wav"],
    functions := [("f", ⟨[],
      [.list [.str "setSample", .str "SAMPLEPOS", .str "SAMPLEPOS/8"]]⟩)],
    CODE := [.list [.str "f", .list []]] }

/-- Equality on interpreter outcomes is decidable whenever it is on the
carried values (used to settle concrete runs by `decide`). -/
instance {ε α : Type} [DecidableEq ε] [DecidableEq α] :
    DecidableEq (Except ε α) := fun a b =>
  match a, b with
  | .ok x, .ok y =>
      if h : x = y then .isTrue (by rw [h])
      else .isFalse (fun hh => h (Except.ok.inj hh))
  | .error x, .error y =>
      if h : x = y then .isTrue (by rw [h])
      else .isFalse (fun hh => h (Except.error.inj hh))
  | .ok _, .error _ => .isFalse nofun
  | .error _, .ok _ => .isFalse nofun

/-- Projection of an `int` value (used to state decidable facts without
comparing whole `PyObj` values). -/
def asInt : PyObj → Option ℤ
  | .int n => some n
  | _ => Option.none

/-- Projection of a `float` value. -/
def asFloat : PyObj → Option ℚ
  | .float q => some q
  | _ => Option.none

/-- The environment `_eval_string` builds when the deepest local frame
is `fr`, the global store is `G` and the cursor is `i`. -/
def envFor (fr G : Dict) (i : ℤ) : Dict :=
  ((Dict.update fr G).insert "SAMPLEPOS" (.int i)).insert "IR" .irHandle

/-- The buffer after writing `Q p` at position `p.toNat` for each `p` of
`ps` in order. -/
def setAll (ps : List ℤ) (Q : ℤ → ℚ) (d : List ℚ) : List ℚ :=
  ps.foldl (fun acc p => acc.set p.toNat (Q p)) d

/-- Between two states: the local-frame stack has the same depth, and
pushes and pops happened in equal numbers
(`push2 - push1 = pop2 - pop1`, phrased without truncated subtraction). -/
def StackBalanced (st st2 : BaengState) : Prop :=
  st2.local_variables.length = st.local_variables.length ∧
  st2.pushCount + st.popCount = st2.popCount + st.pushCount

/-- Between two states: no push and no pop happened at all. -/
def CountsFrozen (st st2 : BaengState) : Prop :=
  st2.pushCount = st.pushCount ∧ st2.popCount = st.popCount

/-- A state whose global store and deepest local frame share the name
`"a"` (global value 1, local value 2) and whose frame also binds `"b"`:
a concrete instance for the environment-construction claims. -/
def stC6 : BaengState :=
  { global_vars := [("a", .int 1)],
    local_variables := [[("a", .int 2), ("b", .int 5)]],
    ir_data := [0], ir_fs := .int 1, ir_duration := .int 1,
    SAMPLEPOS := 3, pushCount := 0, popCount := 0 }

/-- A state in which the program has bound both reserved names itself:
`SAMPLEPOS` as a global and also in the deepest local frame, `IR` as a
global. -/
def stC10 : BaengState :=
  { global_vars := [("SAMPLEPOS", .int 99), ("IR", .int 5)],
    local_variables := [[("SAMPLEPOS", .int 77)]],
    ir_data := [0], ir_fs := .int 1, ir_duration := .int 1,
    SAMPLEPOS := 3, pushCount := 0, popCount := 0 }

/-! ## Helper lemmas on the dict model -/

theorem Dict.lookup_insert_self (d : Dict) (k : String) (v : PyObj) :
    (Dict.insert d k v).lookup k = some v := by
  induction d with
  | nil => simp [Dict.insert, Dict.lookup]
  | cons kv rest ih =>
      obtain ⟨k0, v0⟩ := kv
      by_cases h : k0 = k
      · subst h; simp [Dict.insert, Dict.lookup]
      · simp [Dict.insert, Dict.lookup, h, ih]

theorem Dict.lookup_insert_ne (d : Dict) {k key : String} (v : PyObj)
    (h : key ≠ k) : (Dict.insert d k v).lookup key = d.lookup key := by
  have h' : k ≠ key := Ne.symm h
  induction d with
  | nil => simp [Dict.insert, Dict.lookup, h']
  | cons kv rest ih =>
      obtain ⟨k0, v0⟩ := kv
      by_cases h0 : k0 = k
      · subst h0
        simp [Dict.insert, Dict.lookup, h']
      · simp only [Dict.insert, if_neg h0]
        by_cases h1 : k0 = key
        · subst h1; simp [Dict.lookup]
        · simp [Dict.lookup, h1, ih]

theorem Dict.lookup_none_of_not_mem (d : Dict) (k : String)
    (h : k ∉ d.map Prod.fst) : d.lookup k = Option.none := by
  induction d with
  | nil => simp [Dict.lookup]
  | cons kv rest ih =>
      simp only [List.map_cons, List.mem_cons] at h
      push_neg at h
      simp [Dict.lookup, Ne.symm h.1, ih h.2]

theorem Dict.lookup_update (d e : Dict) (k : String)
    (he : (e.map Prod.fst).Nodup) :
    (Dict.update d e).lookup k =
      match e.lookup k with
      | some v => some v
      | Option.none => d.lookup k := by
  induction e generalizing d with
  | nil => simp [Dict.update, Dict.lookup]
  | cons kv e' ih =>
      obtain ⟨k0, v0⟩ := kv
      simp only [List.map_cons, List.nodup_cons] at he
      have step : Dict.update d ((k0, v0) :: e') =
          Dict.update (Dict.insert d k0 v0) e' := rfl
      rw [step, ih _ he.2]
      by_cases h : k0 = k
      · subst h
        have : Dict.lookup e' k0 = Option.none :=
          Dict.lookup_none_of_not_mem _ _ he.1
        simp [Dict.lookup, this, Dict.lookup_insert_self]
      · simp [Dict.lookup, h, Dict.lookup_insert_ne _ _ (Ne.symm h)]

/-! ## The claims -/

/-- C6 (confirmed).  For every raw-expression evaluation, the
environment handed to the Evaluator is exactly the one
`Baeng._eval_string` assembles: the deepest local frame overlaid by the
global store — a global binding winning every collision with a local
binding of the same (ordinary) name — and it always carries the current
sample cursor under `SAMPLEPOS` and the buffer handle under `IR`. -/
theorem claim_C6 (st : BaengState) (top : Dict) (rest : List Dict)
    (hstack : st.local_variables = top :: rest)
    (hnd : (st.global_vars.map Prod.fst).Nodup) :
    ∃ env, allVariables st = .ok env ∧
      (∀ ctx s, eval_string ctx st s = ctx.evalFn env s) ∧
      env.lookup "SAMPLEPOS" = some (.int st.SAMPLEPOS) ∧
      env.lookup "IR" = some .irHandle ∧
      (∀ n, n ≠ "SAMPLEPOS" → n ≠ "IR" →
        env.lookup n =
          match st.global_vars.lookup n with
          | some v => some v
          | Option.none => top.lookup n) := by
  refine ⟨((Dict.update top st.global_vars).insert
      "SAMPLEPOS" (.int st.SAMPLEPOS)).insert "IR" .irHandle,
    by simp [allVariables, hstack], ?_, ?_, ?_, ?_⟩
  · intro ctx s
    simp only [eval_string, allVariables, hstack]
    rfl
  · rw [Dict.lookup_insert_ne _ _ (by decide), Dict.lookup_insert_self]
  · rw [Dict.lookup_insert_self]
  · intro n h1 h2
    rw [Dict.lookup_insert_ne _ _ h2, Dict.lookup_insert_ne _ _ h1,
      Dict.lookup_update _ _ _ hnd]

/-- C6 witness: in the concrete state `stC6`, where `"a"` is bound both
globally (to 1) and locally (to 2) and `"b"` only locally (to 5), the
supplied environment maps `SAMPLEPOS` to the cursor 3, `IR` to the
buffer handle, `"a"` to the global value 1 and `"b"` to the local
value 5. -/
theorem claim_C6_witness :
    ∃ env, allVariables stC6 = .ok env ∧
      env.lookup "SAMPLEPOS" = some (.int 3) ∧
      env.lookup "IR" = some .irHandle ∧
      env.lookup "a" = some (.int 1) ∧
      env.lookup "b" = some (.int 5) := by
  obtain ⟨env, h0, _, h2, h3, h4⟩ :=
    claim_C6 stC6 [("a", .int 2), ("b", .int 5)] [] rfl (by decide)
  refine ⟨env, h0, h2, h3, ?_, ?_⟩
  · have := h4 "a" (by decide) (by decide)
    simpa using this
  · have := h4 "b" (by decide) (by decide)
    simpa using this

/-- C10 (confirmed).  The always-present `SAMPLEPOS` and `IR` bindings
are installed after the overlay of locals and globals, so they win over
ANY user binding of those names: in every state — including states whose
frames or global store bind `SAMPLEPOS` or `IR` — the environment
supplied to the Evaluator maps `SAMPLEPOS` to the current cursor and
`IR` to the buffer handle. -/
theorem claim_C10 (st : BaengState) (top : Dict) (rest : List Dict)
    (hstack : st.local_variables = top :: rest) :
    ∃ env, allVariables st = .ok env ∧
      (∀ ctx s, eval_string ctx st s = ctx.evalFn env s) ∧
      env.lookup "SAMPLEPOS" = some (.int st.SAMPLEPOS) ∧
      env.lookup "IR" = some .irHandle := by
  refine ⟨((Dict.update top st.global_vars).insert
      "SAMPLEPOS" (.int st.SAMPLEPOS)).insert "IR" .irHandle,
    by simp [allVariables, hstack], ?_, ?_, ?_⟩
  · intro ctx s
    simp only [eval_string, allVariables, hstack]
    rfl
  · rw [Dict.lookup_insert_ne _ _ (by decide), Dict.lookup_insert_self]
  · rw [Dict.lookup_insert_self]

/-- C10 witness: in `stC10` the program has bound `SAMPLEPOS` globally
to 99 and locally to 77, and `IR` globally to 5; the environment
nevertheless maps `SAMPLEPOS` to the true cursor 3 and `IR` to the
buffer handle. -/
theorem claim_C10_witness :
    ∃ env, allVariables stC10 = .ok env ∧
      env.lookup "SAMPLEPOS" = some (.int 3) ∧
      env.lookup "IR" = some .irHandle := by
  obtain ⟨env, h0, _, h2, h3⟩ :=
    claim_C10 stC10 [("SAMPLEPOS", .int 77)] [] rfl
  exact ⟨env, h0, h2, h3⟩

/-! ## Tokenizations of the concrete expression strings -/

theorem tokenize_cursor : tokenize "SAMPLEPOS" = .ok [.ident "SAMPLEPOS"] := rfl

theorem tokenize_cursor_div8 : tokenize "SAMPLEPOS/8" =
    .ok [.ident "SAMPLEPOS", .op '/', .num (.int 8)] := rfl

theorem tokenize_cursor_plus7 : tokenize "SAMPLEPOS+7" =
    .ok [.ident "SAMPLEPOS", .op '+', .num (.int 7)] := rfl

theorem tokenize_p : tokenize "p" = .ok [.ident "p"] := rfl

/-- C7 (confirmed).  The end-to-end example: header
`(rate=8, duration=1, path="out.wav")`, a zero-parameter `f` whose body
is `setSample(SAMPLEPOS, SAMPLEPOS/8)`, called once, produces the
8-sample buffer `[0, 0.125, 0.25, 0.375, 0.5, 0.625, 0.75, 0.875]`
(every value a dyadic rational that `float32` stores exactly). -/
theorem claim_C7 :
    (runScript miniEval 80 scriptC7).map (fun st => st.ir_data) =
      .ok [0, 1/8, 1/4, 3/8, 1/2, 5/8, 3/4, 7/8] := by
  simp [runScript, baengInit, scriptC7, pyListGet, pyMul, pyIntOf, liftPy,
    interpret_codeblock, interpret_lines, operators_apply, fetch_parameter,
    fetch_params, kernel_loop, eval_string, allVariables, miniEval,
    tokenize_cursor, tokenize_cursor_div8, atomVal, binApply, toNum2, Num2.q,
    Dict.update, Dict.insert, Dict.lookup, define_store, dictOfZip, funcLookup,
    pyIterate, pyGetItem, pyTailArgs, pyRange, pyTruthy, npSet, npGet, npIndex,
    toSample, operatorNames, Except.bind, Bind.bind, Except.map]
  norm_num

/-- C2 (code_bug).  The claim (body executed once per buffer position,
cursor `0..N-1`, `N = floor(rate*duration)`) states the documented
intent: `ImpulseResponse` accepts `duration : int | float` and sizes the
buffer as `int(fs * duration)`.  But the per-sample loop iterates
`range(self.IR.fs * self.IR.duration)` — the raw product, not the
buffer length — and Python's `range` raises `TypeError` on ANY float.
With `rate=8, duration=0.5` the buffer is built with `N = 4`, yet the
single call of `f` executes its body zero times and aborts with
`TypeError`. -/
theorem claim_C2_code_bug :
    (baengInit scriptC2).map (fun st => st.ir_data.length) = .ok 4 ∧
    (runScript lookupEval 10 scriptC2).map (fun _ => ()) =
      .error (.py .typeError) := by
  have h48 : (8 : ℚ) * (1 / 2) = 4 := by norm_num
  have h48i : (8 : ℚ) * 2⁻¹ = 4 := by norm_num
  have htdiv : Int.tdiv (4 : ℤ) 1 = 4 := by decide
  constructor
  · simp [baengInit, scriptC2, pyListGet, pyMul, pyIntOf, h48, h48i, htdiv,
      Except.map, Except.bind, Bind.bind]
  · simp [runScript, baengInit, scriptC2, pyListGet, pyMul, pyIntOf, liftPy,
      h48, h48i, htdiv,
      interpret_codeblock, interpret_lines, operators_apply, fetch_parameter,
      fetch_params, kernel_loop, eval_string, allVariables, lookupEval,
      Dict.update, Dict.insert, Dict.lookup, define_store, dictOfZip,
      funcLookup, pyIterate, pyGetItem, pyTailArgs, pyRange, pyTruthy, npSet,
      npGet, npIndex, toSample, operatorNames, Except.bind, Bind.bind,
      Except.map]

/-- C1 counterexample.  `g(p)` writes `p` at every position; the call
`g(SAMPLEPOS+7)` over a 4-sample buffer yields `[7, 7, 7, 7]`: the
argument was evaluated once, before the loop, with the cursor still 0.
Had each argument been re-evaluated at every sample position, as the
claim states, position 1 would have received `SAMPLEPOS+7 = 8` (third
conjunct) and the buffer would read `[7, 8, 9, 10]` (second conjunct
rules that out). -/
theorem claim_C1_counterexample :
    (runScript miniEval 80 (scriptC1 4)).map (fun st => st.ir_data) =
      .ok [7, 7, 7, 7] ∧
    ([7, 7, 7, 7] : List ℚ) ≠ [7, 8, 9, 10] ∧
    (miniEval (envFor [("p", .int 7)] [] 1) "SAMPLEPOS+7").map asInt =
      .ok (some 8) := by
  refine ⟨?_, by decide, by decide⟩
  simp [runScript, baengInit, scriptC1, bodyC1, pyListGet, pyMul, pyIntOf,
    liftPy, interpret_codeblock, interpret_lines, operators_apply,
    fetch_parameter, fetch_params, kernel_loop, eval_string, allVariables,
    miniEval, tokenize_cursor, tokenize_cursor_plus7, tokenize_p, atomVal,
    binApply, toNum2, Num2.q, Dict.update, Dict.insert, Dict.lookup,
    define_store, dictOfZip, funcLookup, pyIterate, pyGetItem, pyTailArgs,
    pyRange, pyTruthy, npSet, npGet, npIndex, toSample, operatorNames,
    Except.bind, Bind.bind, Except.map]

/-- C4 counterexample.  Over a 2-sample buffer, `g()`'s body reads the
variable `x` at position 1 that only the `define` executed at position 0
can have bound — and the run SUCCEEDS, writing 42: the frame pushed for
position 1 is the same parameter dict mutated at position 0, not a fresh
frame (with a fresh frame, `x` would be unbound and the run would abort
with `NameError`).  The second conjunct probes `kernel_loop` directly:
after position 0 alone, the dict that the next position will have pushed
already binds `x` to 42. -/
theorem claim_C4_counterexample :
    (runScript lookupEval 60 scriptC4).map (fun st => st.ir_data) =
      .ok [42, 0] ∧
    (kernel_loop ⟨lookupEval, []⟩ 30 [0] bodyC4 []
        { global_vars := [], local_variables := [[]],
          ir_data := [0, 0], ir_fs := .int 2, ir_duration := .int 1,
          SAMPLEPOS := 0, pushCount := 0, popCount := 0 }).map
      (fun r => (r.1.lookup "x").bind asInt) = .ok (some 42) := by
  refine ⟨?_, by decide⟩
  simp [runScript, baengInit, scriptC4, bodyC4, pyListGet, pyMul, pyIntOf,
    liftPy, interpret_codeblock, interpret_lines, operators_apply,
    fetch_parameter, fetch_params, kernel_loop, eval_string, allVariables,
    lookupEval, Dict.update, Dict.insert, Dict.lookup, define_store,
    dictOfZip, funcLookup, pyIterate, pyGetItem, pyTailArgs, pyRange,
    pyTruthy, npSet, npGet, npIndex, toSample, operatorNames, Except.bind,
    Bind.bind, Except.map]

/-- C5 counterexample.  On the 8-sample buffer of `scriptC5`,
`setSample(-1, 5.0)` does NOT raise `IndexError` — it writes the LAST
sample (numpy negative indexing) — and `readSample(-1)` returns 5.0;
the claim demands `IndexError` for every negative index. -/
theorem claim_C5_counterexample :
    probeC5.map (fun r => (r.1, asFloat r.2)) = .ok (8, some 5) := by decide

/-- C3 (confirmed).  For every ordinary variable name (a Python
identifier other than the reserved `SAMPLEPOS` and `IR`), a `define` of
that name executed inside an `if` body nested in the function body of
`h` writes the invocation's single local frame: the later statement
`setSample(0, name)` of the same body sees the value 7 (buffer `[7]`),
while after the call returns the name is bound neither globally (empty
global store) nor locally (the frame was popped; only the initial empty
frame remains). -/
theorem claim_C3 (name : String) (hid : pyIdent name = true)
    (h1 : name ≠ "SAMPLEPOS") (h2 : name ≠ "IR") :
    (runScript lookupEval 40 (scriptC3 name)).map
      (fun st => (st.ir_data, st.global_vars, st.local_variables)) =
      .ok ([7], [], [[]]) := by
  simp [runScript, baengInit, scriptC3, pyListGet, pyMul, pyIntOf, liftPy,
    interpret_codeblock, interpret_lines, operators_apply, fetch_parameter,
    fetch_params, kernel_loop, eval_string, allVariables, lookupEval,
    Dict.update, Dict.insert, Dict.lookup, define_store, dictOfZip, funcLookup,
    pyIterate, pyGetItem, pyTailArgs, pyRange, pyTruthy, npSet, npGet, npIndex,
    toSample, operatorNames, Except.bind, Bind.bind, Except.map,
    h1, h2, Ne.symm h1, Ne.symm h2]

/-- C3 witness: the concrete name `"v"`. -/
theorem claim_C3_witness :
    (runScript lookupEval 40 (scriptC3 "v")).map
      (fun st => (st.ir_data, st.global_vars, st.local_variables)) =
      .ok ([7], [], [[]]) :=
  claim_C3 "v" (by decide) (by decide) (by decide)

/-- C8 (confirmed).  A statement whose head names neither a reserved
operator nor a registered user function makes the whole statement
sequence fail with `NotImplementedError` (the spec's
`UnknownOperationError`), whatever statements follow: the dictionary
lookup `self.operators[head]` raises `KeyError`, the handler finds the
head absent from `user_functions`, and the error aborts the run — no
later statement of `rest` is executed. -/
theorem claim_C8 (ctx : Ctx) (fuel : ℕ) (h : String) (args rest : List PyObj)
    (scope : Scope) (st : BaengState)
    (hop : h ∉ operatorNames) (hfn : funcLookup ctx.funcs h = Option.none) :
    interpret_lines ctx (fuel + 1) (.list (.str h :: args) :: rest) scope st =
      .error (.py .notImplementedError) := by
  simp [interpret_lines, pyGetItem, pyListGet, liftPy, hop, hfn, Except.bind,
    Bind.bind]

/-- C8 witness: the unknown head `"frobnicate"` with a following
`define` statement, in a context with no user functions. -/
theorem claim_C8_witness :
    interpret_lines ctx0 1
      [.list [.str "frobnicate", .list []],
       .list [.str "define", .str "z", .int 1]] Scope.globalScope stC6 =
      .error (.py .notImplementedError) :=
  claim_C8 ctx0 0 "frobnicate" [.list []]
    [.list [.str "define", .str "z", .int 1]] Scope.globalScope stC6
    (by decide) rfl

/-- C5 amended (corrected).  On a buffer of length `N`, for integer
literal indices: `setSample(i, v)` followed by `readSample(i)` returns
`v` for every `i` with `-N ≤ i < N` (numpy indexing: a negative `i`
addresses position `i + N`), and both operations raise `IndexError`
exactly when `i < -N` or `i ≥ N` — not, as the claim stated, for every
`i` outside `[0, N)`. -/
theorem claim_C5_amended (ctx : Ctx) (fuel : ℕ) (scope : Scope)
    (st : BaengState) (i : ℤ) (q : ℚ) :
    ((-(st.ir_data.length : ℤ) ≤ i ∧ i < (st.ir_data.length : ℤ)) →
      ∃ st',
        operators_apply ctx (fuel + 2) "setSample" [.int i, .float q] scope st
          = .ok (.none, st') ∧
        st'.ir_data.length = st.ir_data.length ∧
        operators_apply ctx (fuel + 2) "readSample" [.int i] scope st' =
          .ok (.float q, st')) ∧
    ((i < -(st.ir_data.length : ℤ) ∨ (st.ir_data.length : ℤ) ≤ i) →
      operators_apply ctx (fuel + 2) "setSample" [.int i, .float q] scope st =
        .error (.py .indexError) ∧
      operators_apply ctx (fuel + 2) "readSample" [.int i] scope st =
        .error (.py .indexError)) := by
  constructor
  · rintro ⟨hlo, hhi⟩
    have hexists : ∃ j : ℕ,
        npIndex i st.ir_data.length = .ok j ∧ j < st.ir_data.length := by
      by_cases h0 : 0 ≤ i
      · exact ⟨i.toNat, by simp [npIndex, h0, hhi], by omega⟩
      · have hneg : i < 0 := by omega
        have hc : ¬(0 ≤ i ∧ i < (st.ir_data.length : ℤ)) := by omega
        exact ⟨(i + st.ir_data.length).toNat,
          by simp [npIndex, hc, hlo, hneg], by omega⟩
    obtain ⟨j, hjeq, hjlt⟩ := hexists
    refine ⟨{ st with ir_data := st.ir_data.set j q }, ?_, by simp, ?_⟩
    · simp [operators_apply, fetch_parameter, liftPy, npSet, hjeq, toSample,
        Except.bind, Bind.bind]
    · simp [operators_apply, fetch_parameter, liftPy, npGet, hjeq,
        List.getElem?_set_eq_of_lt _ hjlt, Except.bind, Bind.bind]
  · intro hout
    have hidx : npIndex i st.ir_data.length = .error .indexError := by
      have h1 : ¬(0 ≤ i ∧ i < (st.ir_data.length : ℤ)) := by omega
      have h2 : ¬(-(st.ir_data.length : ℤ) ≤ i ∧ i < 0) := by omega
      simp [npIndex, h1, h2]
    constructor
    · simp [operators_apply, fetch_parameter, liftPy, npSet, hidx,
        Except.bind, Bind.bind]
    · simp [operators_apply, fetch_parameter, liftPy, npGet, hidx,
        Except.bind, Bind.bind]

/-- C5 witness: on the 8-sample buffer of `scriptC5`, index 3 (in
range), written with 0.25, reads back 0.25; index 9 and index -9 (out
of range on both sides) raise `IndexError`. -/
theorem claim_C5_witness :
    (∃ st', operators_apply ctx0 2 "setSample" [.int 3, .float (1/4)]
        Scope.globalScope stC5c = .ok (.none, st') ∧
      st'.ir_data.length = stC5c.ir_data.length ∧
      operators_apply ctx0 2 "readSample" [.int 3] Scope.globalScope st' =
        .ok (.float (1/4), st')) ∧
    operators_apply ctx0 2 "setSample" [.int 9, .float (1/4)]
      Scope.globalScope stC5c = .error (.py .indexError) ∧
    operators_apply ctx0 2 "readSample" [.int (-9)] Scope.globalScope stC5c =
      .error (.py .indexError) := by
  have h1 := (claim_C5_amended ctx0 0 Scope.globalScope stC5c 3 (1/4)).1
    (by constructor <;> norm_num [stC5c])
  have h2 := (claim_C5_amended ctx0 0 Scope.globalScope stC5c 9 (1/4)).2
    (by right; norm_num [stC5c])
  have h3 := (claim_C5_amended ctx0 0 Scope.globalScope stC5c (-9) (1/4)).2
    (by left; norm_num [stC5c])
  exact ⟨h1, h2.1, h3.2⟩

/-- C9 amended (corrected).  Assembling any `parse_block` output that
contains no IR declaration yields a Program whose header is the empty
list — the missing header is not a parse error — but the resulting
failure is NOT deferred to the first use of the buffer: constructing the
interpreter (`Baeng.__init__` reads `script["IR"][0]`) raises
`IndexError` before any statement runs. -/
theorem claim_C9_amended (parsed : List ParsedItem)
    (hnoIR : ∀ p ∈ parsed, p.isIR = false) :
    (translateAssemble parsed).IR = [] ∧
    baengInit (translateAssemble parsed) = .error .indexError := by
  have key : ∀ (l : List ParsedItem)
      (acc : Option (List PyObj) × List (String × FuncDef) × List PyObj),
      (∀ p ∈ l, p.isIR = false) → (l.foldl assembleStep acc).1 = acc.1 := by
    intro l
    induction l with
    | nil => intro acc _; rfl
    | cons p l' ih =>
        intro acc h
        rw [List.foldl_cons]
        rw [ih _ (fun q hq => h q (List.mem_cons_of_mem _ hq))]
        cases p with
        | irDecl parts => simpa [ParsedItem.isIR] using h _ (List.mem_cons_self _ _)
        | funcDecl n ps body => rfl
        | stmt s => rfl
  have hIR : (translateAssemble parsed).IR = [] := by
    simp [translateAssemble, key parsed _ hnoIR]
  exact ⟨hIR, by simp [baengInit, hIR, pyListGet, Except.bind, Bind.bind]⟩

/-- C9 counterexample.  The empty source parses to the empty item list;
its Program has empty header AND an empty main sequence — it never uses
the buffer at all — yet the run fails (`IndexError` at interpreter
construction).  The claim's "failure occurs only at the first use of
the buffer" would require this program to succeed. -/
theorem claim_C9_counterexample :
    (translateAssemble []).IR = [] ∧
    (translateAssemble []).CODE = [] ∧
    baengInit (translateAssemble []) = .error .indexError :=
  ⟨rfl, rfl, rfl⟩

/-! ## C1: the argument of a call is evaluated once, before the loop -/

theorem c1_eval_cursor (i : ℤ) :
    miniEval [("p", .int 7), ("SAMPLEPOS", .int i), ("IR", .irHandle)]
      "SAMPLEPOS" = .ok (.int i) := by
  simp [miniEval, tokenize_cursor, atomVal, Dict.lookup,
    Except.bind, Bind.bind]

theorem c1_eval_p (i : ℤ) :
    miniEval [("p", .int 7), ("SAMPLEPOS", .int i), ("IR", .irHandle)]
      "p" = .ok (.int 7) := by
  simp [miniEval, tokenize_p, atomVal, Dict.lookup,
    Except.bind, Bind.bind]

theorem c1_eval_arg :
    miniEval [("SAMPLEPOS", .int 0), ("IR", .irHandle)]
      "SAMPLEPOS+7" = .ok (.int 7) := by
  simp [miniEval, tokenize_cursor_plus7, atomVal, binApply, toNum2,
    Dict.lookup, Except.bind, Bind.bind]

/-- One body execution of `g` at the position recorded in
`st.SAMPLEPOS`: it pushes the parameter frame, writes `p`'s value 7 at
the cursor, and pops the frame unchanged. -/
theorem c1_body_step (F : ℕ) (st : BaengState) (r : Dict × BaengState)
    (hG : st.global_vars = [])
    (hlo : 0 ≤ st.SAMPLEPOS) (hhi : st.SAMPLEPOS < (st.ir_data.length : ℤ))
    (h : interpret_codeblock ctxC1 F (.list bodyC1) [("p", .int 7)]
        Scope.localScope st = .ok r) :
    r = ([("p", .int 7)],
      { st with ir_data := st.ir_data.set st.SAMPLEPOS.toNat 7,
                pushCount := st.pushCount + 1,
                popCount := st.popCount + 1 }) := by
  have hset : npIndex st.SAMPLEPOS st.ir_data.length =
      .ok st.SAMPLEPOS.toNat := by
    simp [npIndex, hlo, hhi]
  match F with
  | 0 => simp [interpret_codeblock] at h
  | F1 + 1 =>
    match F1 with
    | 0 =>
      simp [interpret_codeblock, interpret_lines, pyIterate, bodyC1,
        liftPy, Except.bind, Bind.bind] at h
    | F2 + 1 =>
      match F2 with
      | 0 =>
        simp [interpret_codeblock, interpret_lines, operators_apply,
          pyIterate, pyGetItem, pyListGet, pyTailArgs, bodyC1, liftPy,
          operatorNames, Except.bind, Bind.bind] at h
      | F3 + 1 =>
        match F3 with
        | 0 =>
          simp [interpret_codeblock, interpret_lines, operators_apply,
            fetch_parameter, pyIterate, pyGetItem, pyListGet, pyTailArgs,
            bodyC1, liftPy, operatorNames, Except.bind, Bind.bind] at h
        | F4 + 1 =>
          simp [interpret_codeblock, interpret_lines, operators_apply,
            fetch_parameter, eval_string, allVariables, ctxC1, bodyC1,
            pyIterate, pyGetItem, pyListGet, pyTailArgs, liftPy,
            operatorNames, npSet, toSample, hset, hG, c1_eval_cursor,
            c1_eval_p, Dict.update, Dict.insert, Except.bind, Bind.bind] at h
          rw [hG]
          exact h.symm

/-- The kernel loop of `g` writes 7 at every listed position and leaves
the (never-mutated) parameter frame threaded through unchanged. -/
theorem c1_loop : ∀ (ps : List ℤ) (F : ℕ) (st : BaengState)
    (r : Dict × BaengState),
    st.global_vars = [] →
    (∀ p ∈ ps, 0 ≤ p ∧ p < (st.ir_data.length : ℤ)) →
    kernel_loop ctxC1 F ps bodyC1 [("p", .int 7)] st = .ok r →
    r.2.ir_data = setAll ps (fun _ => 7) st.ir_data := by
  intro ps
  induction ps with
  | nil =>
      intro F st r _ _ h
      match F with
      | 0 => simp [kernel_loop] at h
      | F + 1 =>
          simp only [kernel_loop] at h
          rw [← Except.ok.inj h]
          rfl
  | cons p ps ih =>
      intro F st r hG hb h
      match F with
      | 0 => simp [kernel_loop] at h
      | F + 1 =>
          simp only [kernel_loop] at h
          cases hb1 : interpret_codeblock ctxC1 F (.list bodyC1)
              [("p", .int 7)] Scope.localScope
              { st with SAMPLEPOS := p } with
          | error e =>
              rw [hb1] at h
              simp [Except.bind, Bind.bind] at h
          | ok rb =>
              have hp := hb p (List.mem_cons_self _ _)
              have hrb := c1_body_step F { st with SAMPLEPOS := p } rb
                (show ({ st with SAMPLEPOS := p } :
                    BaengState).global_vars = [] from hG)
                (show (0 : ℤ) ≤ ({ st with SAMPLEPOS := p } :
                    BaengState).SAMPLEPOS from hp.1)
                (show ({ st with SAMPLEPOS := p} : BaengState).SAMPLEPOS <
                    (({ st with SAMPLEPOS := p } :
                      BaengState).ir_data.length : ℤ) from hp.2)
                hb1
              simp only [hb1, hrb, Except.bind, Bind.bind] at h
              have hrest := ih F
                { st with SAMPLEPOS := p,
                          ir_data := st.ir_data.set p.toNat 7,
                          pushCount := st.pushCount + 1,
                          popCount := st.popCount + 1 } r hG
                (by
                  intro q hq
                  have := hb q (List.mem_cons_of_mem _ hq)
                  simpa using this)
                (by
                  simpa using h)
              simpa [setAll] using hrest

theorem set_append_length (l1 l2 : List ℚ) (a : ℚ) :
    (l1 ++ l2).set l1.length a = l1 ++ l2.set 0 a := by
  induction l1 with
  | nil => rfl
  | cons x xs ih => simp [List.set, ih]

theorem set_append_length' (l1 l2 : List ℚ) (a : ℚ) (k : ℕ)
    (h : k = l1.length) : (l1 ++ l2).set k a = l1 ++ l2.set 0 a := by
  subst h
  exact set_append_length l1 l2 a

theorem setAll_range (n : ℕ) : ∀ (k : ℕ) (d : List ℚ), d.length = n → k ≤ n →
    setAll ((List.range k).map Int.ofNat) (fun _ => 7) d =
      List.replicate k (7 : ℚ) ++ d.drop k := by
  intro k
  induction k with
  | zero => intro d _ _; simp [setAll]
  | succ k ih =>
      intro d hd hk
      have hkd : k < d.length := by omega
      rw [List.range_succ, List.map_append, setAll, List.foldl_append]
      have hstep := ih d hd (by omega)
      rw [setAll] at hstep
      rw [hstep]
      have hlen : (List.replicate k (7 : ℚ)).length = k := by simp
      simp only [List.map_cons, List.map_nil, List.foldl_cons, List.foldl_nil,
        Int.ofNat_eq_coe, Int.toNat_natCast]
      rw [set_append_length' _ _ _ _ hlen.symm]
      rw [List.drop_eq_getElem_cons hkd]
      simp [List.replicate_succ', List.set]

theorem setAll_range_replicate (n : ℕ) :
    setAll ((List.range n).map Int.ofNat) (fun _ => 7)
      (List.replicate n (0 : ℚ)) = List.replicate n (7 : ℚ) := by
  have h := setAll_range n n (List.replicate n 0) (by simp) le_rfl
  simpa using h

/-- C1 amended (corrected).  For every buffer size `n` and any fuel,
when the run of `scriptC1` — one call `g(SAMPLEPOS+7)` of the
one-parameter kernel `g(p) { setSample(SAMPLEPOS, p) }` — completes, the
buffer holds the SAME value 7 at every position: the argument expression
was evaluated exactly once, before the per-sample loop, in the caller's
environment with the cursor still at its pre-call value 0, and that one
value was bound to `p` at every position.  (Re-evaluation per position,
as the claim states, would have produced `[7, 8, 9, …]` — ruled out by
`claim_C1_counterexample`.) -/
theorem claim_C1_amended (n : ℕ) (fuel : ℕ) (st : BaengState)
    (h : runScript miniEval fuel (scriptC1 n) = .ok st) :
    st.ir_data = List.replicate n (7 : ℚ) := by
  have hnn : ¬((n : ℤ) < 0) := by omega
  simp only [runScript, scriptC1, baengInit, pyListGet, pyMul, pyIntOf,
    liftPy, hnn, mul_one, Int.toNat_natCast, Except.bind, Bind.bind,
    List.get?] at h
  match fuel with
  | 0 => simp [interpret_codeblock] at h
  | A + 1 =>
    simp only [interpret_codeblock, pyIterate, liftPy, Except.bind,
      Bind.bind] at h
    match A with
    | 0 => simp [interpret_lines] at h
    | B + 1 =>
      simp only [interpret_lines, pyGetItem, pyListGet, pyTailArgs,
        operatorNames, funcLookup, liftPy, pyIterate, List.get?,
        Except.bind, Bind.bind] at h
      match B with
      | 0 => simp [fetch_params] at h
      | C + 1 =>
        simp only [fetch_params, Except.bind, Bind.bind] at h
        match C with
        | 0 => simp [fetch_parameter] at h
        | D + 1 =>
          simp [fetch_parameter, fetch_params, eval_string, allVariables,
            Dict.update, Dict.insert, c1_eval_arg, dictOfZip, pyMul, pyRange,
            liftPy, mul_one, Int.toNat_natCast, List.foldl, Except.bind,
            Bind.bind] at h
          cases hk : kernel_loop { evalFn := miniEval, funcs := funcsC1 }
              (D + 1 + 1) (List.map Int.ofNat (List.range n)) bodyC1
              [("p", PyObj.int 7)]
              { global_vars := [], local_variables := [[]],
                ir_data := List.replicate n 0, ir_fs := PyObj.int (n : ℤ),
                ir_duration := PyObj.int 1, SAMPLEPOS := 0,
                pushCount := 0, popCount := 0 } with
          | error e => simp [hk, Except.bind, Bind.bind] at h
          | ok rl =>
            simp only [hk, interpret_lines, Except.bind, Bind.bind] at h
            have hst : rl.2 = st := Except.ok.inj h
            have hdata := c1_loop (List.map Int.ofNat (List.range n))
              (D + 1 + 1)
              { global_vars := [], local_variables := [[]],
                ir_data := List.replicate n 0, ir_fs := PyObj.int (n : ℤ),
                ir_duration := PyObj.int 1, SAMPLEPOS := 0,
                pushCount := 0, popCount := 0 } rl rfl
              (by
                intro q hq
                simp only [List.mem_map, List.mem_range] at hq
                obtain ⟨j, hj, rfl⟩ := hq
                constructor
                · exact Int.ofNat_nonneg j
                · simpa using hj) hk
            rw [← hst]
            rw [hdata]
            simpa using setAll_range_replicate n

/-- C1 witness: the 2-sample instance, run to completion. -/
theorem claim_C1_witness :
    ∃ st, runScript miniEval 60 (scriptC1 2) = .ok st ∧
      st.ir_data = List.replicate 2 (7 : ℚ) := by
  have hrun : runScript miniEval 60 (scriptC1 2) =
      .ok { global_vars := [], local_variables := [[]],
            ir_data := [7, 7], ir_fs := .int 2, ir_duration := .int 1,
            SAMPLEPOS := 1, pushCount := 2, popCount := 2 } := by
    simp [runScript, baengInit, scriptC1, funcsC1, bodyC1, pyListGet, pyMul,
      pyIntOf, liftPy, interpret_codeblock, interpret_lines, operators_apply,
      fetch_parameter, fetch_params, kernel_loop, eval_string, allVariables,
      miniEval, tokenize_cursor, tokenize_cursor_plus7, tokenize_p, atomVal,
      binApply, toNum2, Num2.q, Dict.update, Dict.insert, Dict.lookup,
      define_store, dictOfZip, funcLookup, pyIterate, pyGetItem, pyTailArgs,
      pyRange, pyTruthy, npSet, npGet, npIndex, toSample, operatorNames,
      Except.bind, Bind.bind, Except.map]
  exact ⟨_, hrun, claim_C1_amended 2 60 _ hrun⟩

/-! ## C4: the frame discipline of the three scope modes -/

theorem sbRefl {st : BaengState} : StackBalanced st st :=
  ⟨Eq.refl _, Nat.add_comm _ _⟩

theorem sbTrans {a b c : BaengState}
    (h1 : StackBalanced a b) (h2 : StackBalanced b c) : StackBalanced a c := by
  obtain ⟨l1, c1⟩ := h1
  obtain ⟨l2, c2⟩ := h2
  exact ⟨by omega, by omega⟩

theorem cfRefl {st : BaengState} : CountsFrozen st st :=
  ⟨Eq.refl _, Eq.refl _⟩

theorem cfTrans {a b c : BaengState}
    (h1 : CountsFrozen a b) (h2 : CountsFrozen b c) : CountsFrozen a c := by
  obtain ⟨l1, c1⟩ := h1
  obtain ⟨l2, c2⟩ := h2
  exact ⟨by omega, by omega⟩

theorem scope1_ne_local (scope : Scope) :
    (if scope = Scope.localScope then Scope.stayLocal else scope) ≠
      Scope.localScope := by
  cases scope <;> simp

theorem define_store_shape {n : String} {v : PyObj} {scope : Scope}
    {st st2 : BaengState} (h : define_store n v scope st = .ok st2) :
    st2.local_variables.length = st.local_variables.length ∧
    st2.pushCount = st.pushCount ∧ st2.popCount = st.popCount := by
  cases scope with
  | localScope =>
      cases hlv : st.local_variables with
      | nil => simp [define_store, hlv] at h
      | cons top rest =>
          simp only [define_store, hlv] at h
          obtain rfl := Except.ok.inj h
          simp [hlv]
  | stayLocal =>
      cases hlv : st.local_variables with
      | nil =>
          simp only [define_store, hlv] at h
          obtain rfl := Except.ok.inj h
          simp [hlv]
      | cons top rest =>
          simp only [define_store, hlv] at h
          obtain rfl := Except.ok.inj h
          simp [hlv]
  | globalScope =>
      simp only [define_store] at h
      obtain rfl := Except.ok.inj h
      simp

theorem mk_single_ne (c : Char) (s : String) (hlen : s.toList.length ≠ 1) :
    String.mk [c] ≠ s := by
  intro h
  apply hlen
  rw [← h]
  rfl

theorem singleton_not_op (c : Char) : String.mk [c] ∉ operatorNames := by
  intro h
  simp only [operatorNames, List.mem_cons, List.not_mem_nil, or_false] at h
  rcases h with h | h | h | h | h | h | h <;>
    exact mk_single_ne c _ (by decide) h

theorem funcLookup_none_of_contains {fs : List (String × FuncDef)}
    {h : String} (hc : (fs.map Prod.fst).contains h = false) :
    funcLookup fs h = Option.none := by
  induction fs with
  | nil => rfl
  | cons kf rest ih =>
      simp only [List.map_cons, List.contains_cons, Bool.or_eq_false_iff,
        beq_eq_false_iff_ne, ne_eq] at hc
      have hne : ¬kf.1 = h := fun hh => hc.1 hh.symm
      simp [funcLookup, hne, ih hc.2]

theorem strline_fail (ctx : Ctx) (F : ℕ) (c : Char) (rest : List PyObj)
    (scope : Scope) (st : BaengState) (r : BaengState)
    (hc : (ctx.funcs.map Prod.fst).contains (String.mk [c]) = false)
    (h : interpret_lines ctx F (.str (String.mk [c]) :: rest) scope st =
      .ok r) : False := by
  match F with
  | 0 => simp [interpret_lines] at h
  | F + 1 =>
      simp [interpret_lines, pyGetItem, liftPy, String.toList,
        singleton_not_op, funcLookup_none_of_contains hc, Except.bind,
        Bind.bind] at h

/-- `callFreeList` distributes over list structure. -/
theorem callFreeList_cons {fns : List String} {x : PyObj} {xs : List PyObj}
    (h : callFreeList fns (x :: xs) = true) :
    callFree fns x = true ∧ callFreeList fns xs = true := by
  simpa [callFreeList, Bool.and_eq_true] using h

theorem callFreeList_drop_one {fns : List String} {xs : List PyObj}
    (h : callFreeList fns xs = true) :
    callFreeList fns (xs.drop 1) = true := by
  cases xs with
  | nil => simpa using h
  | cons x xs => exact (callFreeList_cons h).2

theorem callFree_elems {fns : List String} {xs : List PyObj}
    (h : callFree fns (.list xs) = true) : callFreeList fns xs = true := by
  simp only [callFree, Bool.and_eq_true] at h
  exact h.2

theorem callFree_list_head {fns : List String} {hd : String}
    {rest : List PyObj}
    (h : callFree fns (.list (.str hd :: rest)) = true) :
    fns.contains hd = false := by
  simp only [callFree, Bool.and_eq_true] at h
  simpa using h.1

theorem callFree_str_head {fns : List String} {s : String} {c : Char}
    {cs : List Char} (hs : s.toList = c :: cs)
    (h : callFree fns (.str s) = true) :
    fns.contains (String.mk [c]) = false := by
  simp only [callFree] at h
  rw [hs] at h
  simpa using h

/-- C9 witness: a one-function, one-call source without an IR line. -/
theorem claim_C9_witness :
    (translateAssemble
      [ParsedItem.funcDecl "f" [] [],
       ParsedItem.stmt (.list [.str "f", .list []])]).IR = [] ∧
    baengInit (translateAssemble
      [ParsedItem.funcDecl "f" [] [],
       ParsedItem.stmt (.list [.str "f", .list []])]) = .error .indexError :=
  claim_C9_amended _ (by decide)

end Baeng

namespace Baeng

theorem sbOfEqs {a b : BaengState}
    (hl : b.local_variables.length = a.local_variables.length)
    (hp : b.pushCount = a.pushCount) (hq : b.popCount = a.popCount) :
    StackBalanced a b :=
  ⟨hl, by omega⟩

theorem kernel_call_balanced (ctx : Ctx) (fuel : ℕ)
    (IHp : ∀ args scope st r, fetch_params ctx fuel args scope st = .ok r →
      StackBalanced st r.2)
    (IHk : ∀ ps code params st r, kernel_loop ctx fuel ps code params st = .ok r →
      StackBalanced st r.2)
    (IHl : ∀ lines scope st r, interpret_lines ctx fuel lines scope st = .ok r →
      StackBalanced st r)
    (line : PyObj) (rest : List PyObj) (fd : FuncDef) (scope : Scope)
    (st r : BaengState)
    (h : (do
      let argsObj ← liftPy (pyGetItem line 1)
      let argItems ← liftPy (pyIterate argsObj)
      let (vals, st1) ← fetch_params ctx fuel argItems scope st
      let newParams := dictOfZip fd.PARAMS vals
      let prod ← liftPy (pyMul st1.ir_fs st1.ir_duration)
      let positions ← liftPy (pyRange prod)
      let (_, st2) ← kernel_loop ctx fuel positions fd.CODE newParams st1
      interpret_lines ctx fuel rest scope st2) = .ok r) :
    StackBalanced st r := by
  cases hao : pyGetItem line 1 with
  | error e => simp [hao, liftPy, Except.bind, Bind.bind] at h
  | ok argsObj =>
      simp only [hao, liftPy, Except.bind, Bind.bind] at h
      cases hit : pyIterate argsObj with
      | error e => simp [hit, liftPy, Except.bind, Bind.bind] at h
      | ok argItems =>
          simp only [hit, liftPy, Except.bind, Bind.bind] at h
          cases hfp : fetch_params ctx fuel argItems scope st with
          | error e => simp [hfp, Except.bind, Bind.bind] at h
          | ok vs =>
              obtain ⟨vals, st1⟩ := vs
              simp only [hfp, Except.bind, Bind.bind] at h
              cases hm : pyMul st1.ir_fs st1.ir_duration with
              | error e => simp [hm, liftPy, Except.bind, Bind.bind] at h
              | ok prod =>
                  simp only [hm, liftPy, Except.bind, Bind.bind] at h
                  cases hr : pyRange prod with
                  | error e => simp [hr, liftPy, Except.bind, Bind.bind] at h
                  | ok positions =>
                      simp only [hr, liftPy, Except.bind, Bind.bind] at h
                      cases hk : kernel_loop ctx fuel positions fd.CODE
                          (dictOfZip fd.PARAMS vals) st1 with
                      | error e => simp [hk, Except.bind, Bind.bind] at h
                      | ok fs2 =>
                          obtain ⟨fr, st2⟩ := fs2
                          simp only [hk, Except.bind, Bind.bind] at h
                          exact sbTrans (IHp _ _ _ _ hfp)
                            (sbTrans (IHk _ _ _ _ _ hk) (IHl _ _ _ _ h))

theorem interp_invariant (ctx : Ctx) : ∀ fuel : ℕ,
    (∀ obj scope st r,
       fetch_parameter ctx fuel obj scope st = .ok r →
       StackBalanced st r.2 ∧
       (callFree (ctx.funcs.map Prod.fst) obj = true → CountsFrozen st r.2)) ∧
    (∀ name args scope st r,
       operators_apply ctx fuel name args scope st = .ok r →
       StackBalanced st r.2 ∧
       (callFreeList (ctx.funcs.map Prod.fst) args = true → CountsFrozen st r.2)) ∧
    (∀ lines scope st r,
       interpret_lines ctx fuel lines scope st = .ok r →
       StackBalanced st r ∧
       (callFreeList (ctx.funcs.map Prod.fst) lines = true → CountsFrozen st r)) ∧
    (∀ args scope st r,
       fetch_params ctx fuel args scope st = .ok r →
       StackBalanced st r.2 ∧
       (callFreeList (ctx.funcs.map Prod.fst) args = true → CountsFrozen st r.2)) ∧
    (∀ ps code params st r,
       kernel_loop ctx fuel ps code params st = .ok r →
       StackBalanced st r.2) ∧
    (∀ block params scope st r,
       interpret_codeblock ctx fuel block params scope st = .ok r →
       StackBalanced st r.2 ∧
       (scope ≠ Scope.localScope →
         callFree (ctx.funcs.map Prod.fst) block = true → CountsFrozen st r.2)) := by
  intro fuel
  induction fuel with
  | zero =>
      refine ⟨fun a b c d h => ?_, fun a b c d e h => ?_, fun a b c d h => ?_,
        fun a b c d h => ?_, fun a b c d e h => ?_, fun a b c d e h => ?_⟩ <;>
        simp [fetch_parameter, operators_apply, interpret_lines, fetch_params,
          kernel_loop, interpret_codeblock] at h
  | succ fuel ih =>
      obtain ⟨IHf, IHo, IHl, IHp, IHk, IHc⟩ := ih
      refine ⟨?_, ?_, ?_, ?_, ?_, ?_⟩
      · -- fetch_parameter
        intro obj scope st r h
        cases obj with
        | list xs =>
            simp only [fetch_parameter] at h
            cases hx : pyListGet xs 0 with
            | error e => simp [hx, liftPy, Except.bind, Bind.bind] at h
            | ok head =>
                simp only [hx, liftPy, Except.bind, Bind.bind] at h
                cases head with
                | str hd =>
                    dsimp only at h
                    by_cases hop : hd ∈ operatorNames
                    · rw [if_pos hop] at h
                      have hi := IHo hd (xs.drop 1) scope st r h
                      refine ⟨hi.1, fun cf => hi.2 ?_⟩
                      exact callFreeList_drop_one (callFree_elems cf)
                    · rw [if_neg hop] at h
                      simp at h
                | list ys => simp at h
                | irHandle => simp at h
                | int n => simp at h
                | float q => simp at h
                | bool b => simp at h
                | none => simp at h
        | str s =>
            simp only [fetch_parameter] at h
            cases he : eval_string ctx st s with
            | error e => simp [he, liftPy, Except.bind, Bind.bind] at h
            | ok v =>
                simp only [he, liftPy, Except.bind, Bind.bind] at h
                obtain rfl := Except.ok.inj h
                exact ⟨sbRefl, fun _ => cfRefl⟩
        | int n =>
            simp only [fetch_parameter] at h
            obtain rfl := Except.ok.inj h
            exact ⟨sbRefl, fun _ => cfRefl⟩
        | float q =>
            simp only [fetch_parameter] at h
            obtain rfl := Except.ok.inj h
            exact ⟨sbRefl, fun _ => cfRefl⟩
        | bool b => simp [fetch_parameter] at h
        | none => simp [fetch_parameter] at h
        | irHandle => simp [fetch_parameter] at h
      · -- operators_apply
        intro name args scope st r h
        simp only [operators_apply] at h
        split at h
        · -- if
          rename_i cond block
          cases hf : fetch_parameter ctx fuel cond
              (if scope = Scope.localScope then Scope.stayLocal else scope) st with
          | error e => simp [hf, Except.bind, Bind.bind] at h
          | ok cs =>
              obtain ⟨c, st1⟩ := cs
              simp only [hf, Except.bind, Bind.bind] at h
              cases ht : pyTruthy c with
              | error e => simp [ht, liftPy, Except.bind, Bind.bind] at h
              | ok b =>
                  simp only [ht, liftPy, Except.bind, Bind.bind] at h
                  cases b with
                  | false =>
                      simp only [Bool.false_eq_true, if_false] at h
                      obtain rfl := Except.ok.inj h
                      refine ⟨(IHf _ _ _ _ hf).1, fun cf => ?_⟩
                      exact (IHf _ _ _ _ hf).2 (callFreeList_cons cf).1
                  | true =>
                      simp only [if_true] at h
                      cases hc : interpret_codeblock ctx fuel block []
                          (if scope = Scope.localScope then Scope.stayLocal else scope) st1 with
                      | error e => simp [hc, Except.bind, Bind.bind] at h
                      | ok fs2 =>
                          obtain ⟨fr, st2⟩ := fs2
                          simp only [hc, Except.bind, Bind.bind] at h
                          obtain rfl := Except.ok.inj h
                          refine ⟨sbTrans (IHf _ _ _ _ hf).1 (IHc _ _ _ _ _ hc).1,
                            fun cf => ?_⟩
                          have h1 := (IHf _ _ _ _ hf).2 (callFreeList_cons cf).1
                          have h2 := (IHc _ _ _ _ _ hc).2 (scope1_ne_local scope)
                            (callFreeList_cons (callFreeList_cons cf).2).1
                          exact cfTrans h1 h2
        · -- while
          rename_i cond block
          cases hf : fetch_parameter ctx fuel cond
              (if scope = Scope.localScope then Scope.stayLocal else scope) st with
          | error e => simp [hf, Except.bind, Bind.bind] at h
          | ok cs =>
              obtain ⟨c, st1⟩ := cs
              simp only [hf, Except.bind, Bind.bind] at h
              cases ht : pyTruthy c with
              | error e => simp [ht, liftPy, Except.bind, Bind.bind] at h
              | ok b =>
                  simp only [ht, liftPy, Except.bind, Bind.bind] at h
                  cases b with
                  | false =>
                      simp only [Bool.false_eq_true, if_false] at h
                      obtain rfl := Except.ok.inj h
                      refine ⟨(IHf _ _ _ _ hf).1, fun cf => ?_⟩
                      exact (IHf _ _ _ _ hf).2 (callFreeList_cons cf).1
                  | true =>
                      simp only [if_true] at h
                      cases hc : interpret_codeblock ctx fuel block []
                          (if scope = Scope.localScope then Scope.stayLocal else scope) st1 with
                      | error e => simp [hc, Except.bind, Bind.bind] at h
                      | ok fs2 =>
                          obtain ⟨fr, st2⟩ := fs2
                          simp only [hc, Except.bind, Bind.bind] at h
                          have hw := IHo _ _ _ _ _ h
                          refine ⟨sbTrans (IHf _ _ _ _ hf).1
                            (sbTrans (IHc _ _ _ _ _ hc).1 hw.1),
                            fun cf => ?_⟩
                          have h1 := (IHf _ _ _ _ hf).2 (callFreeList_cons cf).1
                          have h2 := (IHc _ _ _ _ _ hc).2 (scope1_ne_local scope)
                            (callFreeList_cons (callFreeList_cons cf).2).1
                          exact cfTrans h1 (cfTrans h2 (hw.2 cf))
        · -- define
          rename_i nameObj valueObj
          cases hf : fetch_parameter ctx fuel valueObj scope st with
          | error e => simp [hf, Except.bind, Bind.bind] at h
          | ok vs =>
              obtain ⟨v, st1⟩ := vs
              simp only [hf, Except.bind, Bind.bind] at h
              cases nameObj with
              | str n =>
                  cases hd : define_store n v scope st1 with
                  | error e => simp [hd, liftPy, Except.bind, Bind.bind] at h
                  | ok st2 =>
                      simp only [hd, liftPy, Except.bind, Bind.bind] at h
                      obtain rfl := Except.ok.inj h
                      have hs := define_store_shape hd
                      refine ⟨sbTrans (IHf _ _ _ _ hf).1
                        (sbOfEqs hs.1 hs.2.1 hs.2.2), fun cf => ?_⟩
                      have h1 := (IHf _ _ _ _ hf).2
                        (callFreeList_cons (callFreeList_cons cf).2).1
                      exact cfTrans h1 ⟨hs.2.1, hs.2.2⟩
              | list ys => simp at h
              | int m => simp at h
              | float q => simp at h
              | bool b => simp at h
              | none => simp at h
              | irHandle => simp at h
        · -- setSample
          rename_i key value
          cases hf : fetch_parameter ctx fuel key scope st with
          | error e => simp [hf, Except.bind, Bind.bind] at h
          | ok ks =>
              obtain ⟨idx, st1⟩ := ks
              simp only [hf, Except.bind, Bind.bind] at h
              cases hg : fetch_parameter ctx fuel value scope st1 with
              | error e => simp [hg, Except.bind, Bind.bind] at h
              | ok vs =>
                  obtain ⟨v, st2⟩ := vs
                  simp only [hg, Except.bind, Bind.bind] at h
                  cases hn : npSet st2.ir_data idx v with
                  | error e => simp [hn, liftPy, Except.bind, Bind.bind] at h
                  | ok data =>
                      simp only [hn, liftPy, Except.bind, Bind.bind] at h
                      obtain rfl := Except.ok.inj h
                      refine ⟨sbTrans (IHf _ _ _ _ hf).1
                        (sbTrans (IHf _ _ _ _ hg).1
                          ⟨Eq.refl _, Nat.add_comm _ _⟩), fun cf => ?_⟩
                      have h1 := (IHf _ _ _ _ hf).2 (callFreeList_cons cf).1
                      have h2 := (IHf _ _ _ _ hg).2
                        (callFreeList_cons (callFreeList_cons cf).2).1
                      exact cfTrans h1 (cfTrans h2 ⟨Eq.refl _, Eq.refl _⟩)
        · -- readSample
          rename_i key
          cases hf : fetch_parameter ctx fuel key scope st with
          | error e => simp [hf, Except.bind, Bind.bind] at h
          | ok ks =>
              obtain ⟨idx, st1⟩ := ks
              simp only [hf, Except.bind, Bind.bind] at h
              cases hn : npGet st1.ir_data idx with
              | error e => simp [hn, liftPy, Except.bind, Bind.bind] at h
              | ok q =>
                  simp only [hn, liftPy, Except.bind, Bind.bind] at h
                  obtain rfl := Except.ok.inj h
                  refine ⟨(IHf _ _ _ _ hf).1, fun cf => ?_⟩
                  exact (IHf _ _ _ _ hf).2 (callFreeList_cons cf).1
        · -- export
          obtain rfl := Except.ok.inj h
          exact ⟨sbRefl, fun _ => cfRefl⟩
        · -- print
          obtain rfl := Except.ok.inj h
          exact ⟨sbRefl, fun _ => cfRefl⟩
        · -- unknown operator
          simp at h
      · -- interpret_lines
        intro lines scope st r h
        cases lines with
        | nil =>
            simp only [interpret_lines] at h
            obtain rfl := Except.ok.inj h
            exact ⟨sbRefl, fun _ => cfRefl⟩
        | cons line rest =>
            simp only [interpret_lines] at h
            cases line with
            | list xs =>
                cases xs with
                | nil => simp [pyGetItem, pyListGet, liftPy, Except.bind, Bind.bind] at h
                | cons x0 xs2 =>
                    have hg : pyGetItem (PyObj.list (x0 :: xs2)) 0 = .ok x0 := rfl
                    simp only [hg, liftPy, Except.bind, Bind.bind] at h
                    cases x0 with
                    | str s =>
                        dsimp only at h
                        by_cases hop : s ∈ operatorNames
                        · rw [if_pos hop] at h
                          have hta : pyTailArgs (PyObj.list (PyObj.str s :: xs2)) =
                              .ok xs2 := rfl
                          rw [hta] at h
                          dsimp only at h
                          cases hoa : operators_apply ctx fuel s xs2 scope st with
                          | ok p =>
                              obtain ⟨v, st1⟩ := p
                              rw [hoa] at h
                              dsimp only at h
                              refine ⟨sbTrans (IHo _ _ _ _ _ hoa).1
                                (IHl _ _ _ _ h).1, fun cf => ?_⟩
                              obtain ⟨cf1, cfr⟩ := callFreeList_cons cf
                              have hargs := callFreeList_drop_one (callFree_elems cf1)
                              exact cfTrans ((IHo _ _ _ _ _ hoa).2 hargs)
                                ((IHl _ _ _ _ h).2 cfr)
                          | error e =>
                              rw [hoa] at h
                              cases e with
                              | fuelOut => simp at h
                              | py pe =>
                                  cases pe
                                  · dsimp only at h
                                    cases hfl : funcLookup ctx.funcs s with
                                    | none => rw [hfl] at h; simp at h
                                    | some fd =>
                                        rw [hfl] at h
                                        dsimp only at h
                                        refine ⟨kernel_call_balanced ctx fuel
                                          (fun a b c d hh => (IHp a b c d hh).1) IHk
                                          (fun a b c d hh => (IHl a b c d hh).1)
                                          _ _ fd _ _ _ h, fun cf => ?_⟩
                                        obtain ⟨cf1, cfr⟩ := callFreeList_cons cf
                                        rw [funcLookup_none_of_contains
                                          (callFree_list_head cf1)] at hfl
                                        exact Option.noConfusion hfl
                                  all_goals simp at h
                        · rw [if_neg hop] at h
                          dsimp only at h
                          cases hfl : funcLookup ctx.funcs s with
                          | none => rw [hfl] at h; simp at h
                          | some fd =>
                              rw [hfl] at h
                              dsimp only at h
                              refine ⟨kernel_call_balanced ctx fuel
                                (fun a b c d hh => (IHp a b c d hh).1) IHk
                                (fun a b c d hh => (IHl a b c d hh).1)
                                _ _ fd _ _ _ h, fun cf => ?_⟩
                              obtain ⟨cf1, cfr⟩ := callFreeList_cons cf
                              rw [funcLookup_none_of_contains
                                (callFree_list_head cf1)] at hfl
                              exact Option.noConfusion hfl
                    | list ys => simp at h
                    | irHandle => simp at h
                    | int n => simp at h
                    | float q => simp at h
                    | bool b => simp at h
                    | none => simp at h
            | str t =>
                cases hts : t.toList with
                | nil =>
                    have hd2 : t.data = [] := hts
                    have hg : pyGetItem (PyObj.str t) 0 = .error .indexError := by
                      simp [pyGetItem, hd2]
                    simp [hg, liftPy, Except.bind, Bind.bind] at h
                | cons c cs =>
                    have hd2 : t.data = c :: cs := hts
                    have hg : pyGetItem (PyObj.str t) 0 =
                        .ok (.str (String.mk [c])) := by
                      simp [pyGetItem, hd2]
                    simp only [hg, liftPy, Except.bind, Bind.bind] at h
                    rw [if_neg (singleton_not_op c)] at h
                    dsimp only at h
                    cases hfl : funcLookup ctx.funcs (String.mk [c]) with
                    | none => rw [hfl] at h; simp at h
                    | some fd =>
                        rw [hfl] at h
                        dsimp only at h
                        refine ⟨kernel_call_balanced ctx fuel
                          (fun a b c d hh => (IHp a b c d hh).1) IHk
                          (fun a b c d hh => (IHl a b c d hh).1)
                          _ _ fd _ _ _ h, fun cf => ?_⟩
                        obtain ⟨cf1, cfr⟩ := callFreeList_cons cf
                        rw [funcLookup_none_of_contains
                          (callFree_str_head hts cf1)] at hfl
                        exact Option.noConfusion hfl
            | int n => simp [pyGetItem, liftPy, Except.bind, Bind.bind] at h
            | float q => simp [pyGetItem, liftPy, Except.bind, Bind.bind] at h
            | bool b => simp [pyGetItem, liftPy, Except.bind, Bind.bind] at h
            | none => simp [pyGetItem, liftPy, Except.bind, Bind.bind] at h
            | irHandle => simp [pyGetItem, liftPy, Except.bind, Bind.bind] at h
      · -- fetch_params
        intro args scope st r h
        cases args with
        | nil =>
            simp only [fetch_params] at h
            obtain rfl := Except.ok.inj h
            exact ⟨sbRefl, fun _ => cfRefl⟩
        | cons p ps =>
            simp only [fetch_params] at h
            cases hf : fetch_parameter ctx fuel p scope st with
            | error e => simp [hf, Except.bind, Bind.bind] at h
            | ok vs =>
                obtain ⟨v, st1⟩ := vs
                simp only [hf, Except.bind, Bind.bind] at h
                cases hp : fetch_params ctx fuel ps scope st1 with
                | error e => simp [hp, Except.bind, Bind.bind] at h
                | ok ws =>
                    obtain ⟨wsv, st2⟩ := ws
                    simp only [hp, Except.bind, Bind.bind] at h
                    obtain rfl := Except.ok.inj h
                    refine ⟨sbTrans (IHf _ _ _ _ hf).1
                      (IHp _ _ _ _ hp).1, fun cf => ?_⟩
                    obtain ⟨cf1, cfr⟩ := callFreeList_cons cf
                    exact cfTrans ((IHf _ _ _ _ hf).2 cf1)
                      ((IHp _ _ _ _ hp).2 cfr)
      · -- kernel_loop
        intro ps code params st r h
        cases ps with
        | nil =>
            simp only [kernel_loop] at h
            obtain rfl := Except.ok.inj h
            exact sbRefl
        | cons p ps2 =>
            simp only [kernel_loop] at h
            cases hc : interpret_codeblock ctx fuel (.list code) params
                Scope.localScope { st with SAMPLEPOS := p } with
            | error e => simp [hc, Except.bind, Bind.bind] at h
            | ok fs2 =>
                obtain ⟨frame, st1⟩ := fs2
                simp only [hc, Except.bind, Bind.bind] at h
                have h1 : StackBalanced st { st with SAMPLEPOS := p } :=
                  ⟨Eq.refl _, Nat.add_comm _ _⟩
                exact sbTrans h1
                  (sbTrans (IHc _ _ _ _ _ hc).1 (IHk _ _ _ _ _ h))
      · -- interpret_codeblock
        intro block params scope st r h
        simp only [interpret_codeblock] at h
        by_cases hsc : scope = Scope.localScope
        · subst hsc
          simp only [if_pos (Eq.refl Scope.localScope), if_true] at h
          cases hit : pyIterate block with
          | error e => simp [hit, liftPy, Except.bind, Bind.bind] at h
          | ok lines =>
              simp only [hit, liftPy, Except.bind, Bind.bind] at h
              cases hl : interpret_lines ctx fuel lines Scope.localScope
                  { st with local_variables := params :: st.local_variables,
                            pushCount := st.pushCount + 1 } with
              | error e => simp [hl, Except.bind, Bind.bind] at h
              | ok st1 =>
                  rw [hl] at h
                  dsimp only at h
                  have hb := (IHl _ _ _ _ hl).1
                  obtain ⟨hlen, hcnt⟩ := hb
                  have hlen2 : st1.local_variables.length =
                      st.local_variables.length + 1 := hlen
                  have hcnt2 : st1.pushCount + st.popCount =
                      st1.popCount + (st.pushCount + 1) := hcnt
                  cases hlv : st1.local_variables with
                  | nil =>
                      rw [hlv] at hlen2
                      simp at hlen2
                  | cons top rest2 =>
                      rw [hlv] at h hlen2
                      dsimp only at h
                      obtain rfl := Except.ok.inj h
                      refine ⟨⟨?_, ?_⟩, fun hne _ => absurd (Eq.refl _) hne⟩
                      · show rest2.length = st.local_variables.length
                        simp only [List.length_cons] at hlen2
                        omega
                      · show st1.pushCount + st.popCount =
                          st1.popCount + 1 + st.pushCount
                        omega
        · rw [if_neg hsc] at h
          cases hit : pyIterate block with
          | error e => simp [hit, liftPy, Except.bind, Bind.bind] at h
          | ok lines =>
              simp only [hit, liftPy, Except.bind, Bind.bind] at h
              cases hl : interpret_lines ctx fuel lines scope st with
              | error e => simp [hl, Except.bind, Bind.bind] at h
              | ok st1 =>
                  rw [hl] at h
                  dsimp only at h
                  rw [if_neg hsc] at h
                  obtain rfl := Except.ok.inj h
                  refine ⟨(IHl _ _ _ _ hl).1, fun hne cf => ?_⟩
                  refine (IHl _ _ _ _ hl).2 ?_
                  cases block with
                  | list xs =>
                      obtain rfl : lines = xs := by
                        simpa [pyIterate] using hit.symm
                      exact callFree_elems cf
                  | str s =>
                      obtain rfl : lines =
                          s.toList.map (fun c => PyObj.str (String.mk [c])) := by
                        simpa [pyIterate] using hit.symm
                      cases hts : s.toList with
                      | nil => exact Eq.refl _
                      | cons c cs =>
                          rw [hts] at hl
                          exact absurd hl (fun hh => strline_fail ctx fuel c _
                            scope st st1 (callFree_str_head hts cf) hh)
                  | int n => simp [pyIterate] at hit
                  | float q => simp [pyIterate] at hit
                  | bool b => simp [pyIterate] at hit
                  | none => simp [pyIterate] at hit
                  | irHandle => simp [pyIterate] at hit

end Baeng

namespace Baeng

/-- C4 (amended).  The push/pop discipline holds, but the frame pushed
at each kernel position is the caller's shared parameter dict rather
than a fresh one (see the counterexample): every successful
`_interpret_codeblock` run returns the local-frame stack to its entry
depth with pushes and pops in equal number; a `"local"`-scope run of a
call-free block performs exactly one push and one pop (the
function-entry frame); and a `"global"`- or `"stay_local"`-scope run of
a call-free block performs no push and no pop at all. -/
theorem claim_C4_amended (ctx : Ctx) (fuel : ℕ) (block : PyObj)
    (params : Dict) (scope : Scope) (st : BaengState) (r : Dict × BaengState)
    (h : interpret_codeblock ctx fuel block params scope st = .ok r) :
    (r.2.local_variables.length = st.local_variables.length ∧
     r.2.pushCount + st.popCount = r.2.popCount + st.pushCount) ∧
    (scope = Scope.localScope →
      callFree (ctx.funcs.map Prod.fst) block = true →
      r.2.pushCount = st.pushCount + 1 ∧ r.2.popCount = st.popCount + 1) ∧
    (scope ≠ Scope.localScope →
      callFree (ctx.funcs.map Prod.fst) block = true →
      r.2.pushCount = st.pushCount ∧ r.2.popCount = st.popCount) := by
  refine ⟨((interp_invariant ctx fuel).2.2.2.2.2 _ _ _ _ _ h).1, ?_,
    fun hne cf => ((interp_invariant ctx fuel).2.2.2.2.2 _ _ _ _ _ h).2 hne cf⟩
  intro hsc cf
  subst hsc
  cases fuel with
  | zero => simp [interpret_codeblock] at h
  | succ F =>
      simp only [interpret_codeblock] at h
      simp only [if_pos (Eq.refl Scope.localScope), if_true] at h
      cases hit : pyIterate block with
      | error e => simp [hit, liftPy, Except.bind, Bind.bind] at h
      | ok lines =>
          simp only [hit, liftPy, Except.bind, Bind.bind] at h
          cases hl : interpret_lines ctx F lines Scope.localScope
              { st with local_variables := params :: st.local_variables,
                        pushCount := st.pushCount + 1 } with
          | error e => simp [hl, Except.bind, Bind.bind] at h
          | ok st1 =>
              rw [hl] at h
              dsimp only at h
              have hcfl : callFreeList (ctx.funcs.map Prod.fst) lines = true := by
                cases block with
                | list xs =>
                    obtain rfl : lines = xs := by simpa [pyIterate] using hit.symm
                    exact callFree_elems cf
                | str s =>
                    obtain rfl : lines =
                        s.toList.map (fun c => PyObj.str (String.mk [c])) := by
                      simpa [pyIterate] using hit.symm
                    cases hts : s.toList with
                    | nil => exact Eq.refl _
                    | cons c cs =>
                        rw [hts] at hl
                        exact absurd hl (fun hh => strline_fail ctx F c _ _ _ _
                          (callFree_str_head hts cf) hh)
                | int n => simp [pyIterate] at hit
                | float q => simp [pyIterate] at hit
                | bool b => simp [pyIterate] at hit
                | none => simp [pyIterate] at hit
                | irHandle => simp [pyIterate] at hit
              have hfz := ((interp_invariant ctx F).2.2.1 _ _ _ _ hl).2 hcfl
              have hp : st1.pushCount = st.pushCount + 1 := hfz.1
              have hq : st1.popCount = st.popCount := hfz.2
              cases hlv : st1.local_variables with
              | nil => rw [hlv] at h; simp at h
              | cons top rest2 =>
                  rw [hlv] at h
                  dsimp only at h
                  obtain rfl := Except.ok.inj h
                  refine ⟨hp, ?_⟩
                  show st1.popCount + 1 = st.popCount + 1
                  omega

/-- C4 witness: one `define` statement run as a `"local"`-scope block
on `stC6` with an empty parameter dict pushes and pops exactly once,
returning the popped frame that now binds `y`. -/
theorem claim_C4_witness :
    interpret_codeblock ctx0 10
        (.list [.list [.str "define", .str "y", .int 1]]) []
        Scope.localScope stC6 =
      .ok ([("y", .int 1)], { stC6 with pushCount := 1, popCount := 1 }) ∧
    ({ stC6 with pushCount := 1, popCount := 1 } : BaengState).pushCount =
        stC6.pushCount + 1 ∧
    ({ stC6 with pushCount := 1, popCount := 1 } : BaengState).popCount =
        stC6.popCount + 1 :=
  ⟨rfl,
   (claim_C4_amended ctx0 10
     (.list [.list [.str "define", .str "y", .int 1]]) []
     Scope.localScope stC6
     ([("y", .int 1)], { stC6 with pushCount := 1, popCount := 1 })
     rfl).2.1 rfl rfl⟩

end Baeng
